import Mathlib

/-!
Verification development for the bunker-convert media pipeline.

Shallow embedding of the core engine: device scheduling and negotiation
(`src/scheduler.rs`, `src/pipeline.rs`), the H.264 Annex-B parser and its
exp-Golomb bit reader (`src/video/h264.rs`), output-path templating
(`src/stages/mod.rs`), quality metrics (`src/quality.rs`), quality-gate
evaluation (`src/pipeline.rs`), the artifact model and image stages
(`src/pipeline.rs`, `src/stages/mod.rs`), and the ISO-BMFF demuxer
(`src/video/container.rs`, `src/stages/video.rs`).

Machine integers are modelled as `Nat`/`Int` with explicit reduction
modulo `2 ^ 32` where u32 overflow matters; fallible Rust code returning
`anyhow::Result` is modelled with `Except String`.  Loops are modelled by
fuel-indexed structural recursion (the fuel arguments are always supplied
with enough fuel for the loop bound of the source, so the models compute
by `decide`/`rfl`).
-/

namespace Bunker

/-! ## Device scheduler (`src/scheduler.rs`) -/

inductive StageDevice where
  | cpu
  | gpu
deriving DecidableEq, Repr

inductive DevicePolicy where
  | auto
  | cpuOnly
  | gpuPreferred
deriving DecidableEq, Repr

/-- Debug formatting of `StageDevice` (Rust `{:?}`). -/
def StageDevice.debugFmt : StageDevice → String
  | .cpu => "Cpu"
  | .gpu => "Gpu"

structure TaskScheduler where
  policy : DevicePolicy
  gpu_available : Bool
deriving DecidableEq, Repr

/-- `TaskScheduler::select_device` (src/scheduler.rs lines 39-57).
The stage name argument is unused by the source as well. -/
def TaskScheduler.select_device (s : TaskScheduler) (_stage_name : String) : StageDevice :=
  match s.policy with
  | .cpuOnly => .cpu
  | .gpuPreferred => if s.gpu_available then .gpu else .cpu
  | .auto => if s.gpu_available then .gpu else .cpu

/-- The device-negotiation logic of `PipelineExecutor::process`
(src/pipeline.rs lines 176-194): the requested device is used if the
stage supports it, a GPU request falls back to CPU, a CPU request is
promoted to GPU only when the scheduler reports GPU available, and
otherwise the run fails with a message naming the stage and the
requested device. -/
def negotiate_device (s : TaskScheduler) (stage_name : String)
    (supports : StageDevice → Bool) : Except String StageDevice :=
  let requested := s.select_device stage_name
  if supports requested then .ok requested
  else if requested = .gpu && supports .cpu then .ok .cpu
  else if requested = .cpu && s.gpu_available && supports .gpu then .ok .gpu
  else .error ("Stage '" ++ stage_name ++ "' does not support requested device "
      ++ requested.debugFmt)

/-! ## H.264 Annex-B parser (`src/video/h264.rs`) -/

/-- One parsed NAL unit (src/video/h264.rs lines 37-41); the payload is a
byte list. -/
structure NalUnit where
  nal_type : Nat
  payload : List Nat
deriving DecidableEq, Repr

/-- `startsWithSeq pat l` is true when `pat` is an initial segment of `l`
(used to model Rust slice comparisons such as `&data[i..i+3] == [0,0,1]`). -/
def startsWithSeq : List Nat → List Nat → Bool
  | [], _ => true
  | _ :: _, [] => false
  | p :: ps, x :: xs => p == x && startsWithSeq ps xs

/-- `containsSeq pat l` is true when `pat` occurs as a contiguous
subsequence of `l`. -/
def containsSeq (pat : List Nat) : List Nat → Bool
  | [] => startsWithSeq pat []
  | l@(_ :: xs) => startsWithSeq pat l || containsSeq pat xs

/-- The inner scan of `split_annex_b` (src/video/h264.rs lines 113-115):
starting from `i`, advance while `i + 3 < data.len()` and the three bytes
at `i` are not a start code; returns the final `i`.  `fuel` only drives
the recursion; it is instantiated with `data.length` so that the loop is
never cut short. -/
def findNalEnd (data : List Nat) : Nat → Nat → Nat
  | 0, i => i
  | fuel + 1, i =>
    if i + 3 < data.length then
      if startsWithSeq [0, 0, 1] (data.drop i) then i
      else findNalEnd data fuel (i + 1)
    else i

/-- The outer loop of `split_annex_b` (src/video/h264.rs lines 109-131).
`fuel` is instantiated with `data.length`. -/
def splitLoop (data : List Nat) : Nat → Nat → List NalUnit → List NalUnit
  | 0, _, units => units
  | fuel + 1, i, units =>
    if i + 3 < data.length then
      if startsWithSeq [0, 0, 1] (data.drop i) then
        let start := i + 3
        let e := findNalEnd data data.length start
        let units' :=
          if start < e then
            let header := data.getD start 0
            units ++ [⟨header &&& 31, (data.drop start).take (e - start)⟩]
          else units
        splitLoop data fuel e units'
      else if i + 4 < data.length && startsWithSeq [0, 0, 0, 1] (data.drop i) then
        splitLoop data fuel (i + 1) units
      else
        splitLoop data fuel (i + 1) units
    else units

/-- `split_annex_b` (src/video/h264.rs lines 106-136).  `header & 0x1F` is
modelled as `% 32` on bytes (< 256). -/
def split_annex_b (data : List Nat) : Except String (List NalUnit) :=
  let units := splitLoop data data.length 0 []
  if units = [] then .error "no NAL units found" else .ok units

/-- `remove_emulation_prevention` (src/video/h264.rs lines 216-230): the
Rust loop tests `i + 2 < data.len()` (at least three bytes remain from
`i`) and compares the three bytes at `i` with `00 00 03`; on a match it
pushes `00 00` and skips three bytes, otherwise it copies one byte.  The
final one or two bytes are copied verbatim (the catch-all case). -/
def remove_emulation_prevention : List Nat → List Nat
  | x :: y :: z :: rest =>
    if x = 0 ∧ y = 0 ∧ z = 3 then
      0 :: 0 :: remove_emulation_prevention rest
    else
      x :: remove_emulation_prevention (y :: z :: rest)
  | l => l

/-! ### Exp-Golomb bit reader (src/video/h264.rs lines 262-309) -/

structure BitReader where
  data : List Nat
  bit_pos : Nat
deriving DecidableEq, Repr

/-- The loop body of `BitReader::read_bits` (src/video/h264.rs lines
277-287), iterated `count` times: errors with "bitstream overread" when
the byte position leaves the buffer, otherwise shifts the next bit into
the u32 accumulator (explicitly reduced mod `2 ^ 32`). -/
def readBitsLoop (data : List Nat) : Nat → Nat → Nat → Except String (Nat × Nat)
  | 0, pos, value => .ok (value, pos)
  | count + 1, pos, value =>
    let byte_pos := pos / 8
    if byte_pos < data.length then
      let bit_offset := 7 - pos % 8
      let bit := ((data.getD byte_pos 0) >>> bit_offset) &&& 1
      readBitsLoop data count (pos + 1) (((value <<< 1) % 4294967296) ||| bit)
    else .error "bitstream overread"

/-- `BitReader::read_bits` (src/video/h264.rs lines 272-288). -/
def BitReader.read_bits (r : BitReader) (count : Nat) :
    Except String (Nat × BitReader) :=
  if count = 0 then .ok (0, r)
  else
    match readBitsLoop r.data count r.bit_pos 0 with
    | .error e => .error e
    | .ok (value, pos) => .ok (value, ⟨r.data, pos⟩)

/-- The zero-counting loop of `BitReader::read_ue` (src/video/h264.rs
lines 291-294): read single bits until a one bit appears, counting the
zeros.  `fuel` is instantiated with `8 * data.length + 1`, enough for any
run within the buffer. -/
def readUeZeros (r : BitReader) : Nat → Nat → Except String (Nat × BitReader)
  | 0, zeros => .ok (zeros, r)
  | fuel + 1, zeros =>
    match r.read_bits 1 with
    | .error e => .error e
    | .ok (b, r') => if b = 0 then readUeZeros r' fuel (zeros + 1) else .ok (zeros, r')

/-- `BitReader::read_ue` (src/video/h264.rs lines 290-302).  The Rust
expression `(1 << zeros) - 1 + suffix` shifts a `u32` by `zeros`; for
`zeros >= 32` this is an overflowing shift, which panics in debug builds —
modelled here as a distinguished error.  For `zeros <= 31` the Rust
arithmetic cannot wrap (the maximum value is `2^32 - 1`), so plain `Nat`
arithmetic is faithful. -/
def BitReader.read_ue (r : BitReader) : Except String (Nat × BitReader) :=
  match readUeZeros r (8 * r.data.length + 1) 0 with
  | .error e => .error e
  | .ok (zeros, r') =>
    if zeros > 0 then
      match r'.read_bits zeros with
      | .error e => .error e
      | .ok (suffix, r'') =>
        if zeros < 32 then .ok ((1 <<< zeros) - 1 + suffix, r'')
        else .error "attempt to shift left with overflow"
    else .ok (0, r')

/-- Specification helper: the bit the reader extracts at absolute bit
position `i` (MSB-first within each byte). -/
def bitAt (data : List Nat) (i : Nat) : Nat :=
  ((data.getD (i / 8) 0) >>> (7 - i % 8)) &&& 1

/-- Specification helper: the big-endian value of `n` bits starting at
bit position `pos`. -/
def bitsVal (data : List Nat) (pos : Nat) : Nat → Nat
  | 0 => 0
  | n + 1 => bitsVal data pos n * 2 + bitAt data (pos + n)

/-- Wrap of a `u32` value into an `i32` (the Rust cast `ue as i32`). -/
def u32AsI32 (n : Nat) : Int :=
  if n < 2147483648 then (n : Int) else (n : Int) - 4294967296

/-- `BitReader::read_se` (src/video/h264.rs lines 304-308).  Rust `%` and
`/` on `i32` are sign-truncating, i.e. `Int.tmod` and `Int.tdiv`.  In the
odd branch the Rust expression `ue + 1` is an `i32` addition: at
`ue = i32::MAX` (unsigned `2^31 - 1`) it overflows, which panics in debug
builds — modelled as a distinguished error.  Elsewhere neither the
addition, nor `ue / 2`, nor the negation can leave the `i32` range
(`-(ue / 2)` would only overflow at `ue / 2 = i32::MIN`, which is
unreachable), so exact `Int` arithmetic is faithful. -/
def BitReader.read_se (r : BitReader) : Except String (Int × BitReader) :=
  match r.read_ue with
  | .error e => .error e
  | .ok (ue, r') =>
    let u : Int := u32AsI32 ue
    if Int.tmod u 2 = 0 then .ok (-(Int.tdiv u 2), r')
    else if u = 2147483647 then .error "attempt to add with overflow"
    else .ok (Int.tdiv (u + 1) 2, r')

/-! ## JSON values and metadata (serde_json `Value` / `Map<String, Value>`) -/

/-- `serde_json::Value`.  Numbers are idealised as reals (`f64` values in
the code); only booleans and strings are ever inspected by the modelled
code paths.  Strings are lists of characters. -/
inductive JValue where
  | null
  | bool (b : Bool)
  | num (x : ℝ)
  | str (s : List Char)
  | arr (xs : List JValue)
  | obj (kvs : List (List Char × JValue))

/-- `Value::as_str`. -/
def JValue.asStr : JValue → Option (List Char)
  | .str s => some s
  | _ => none

/-- `Value::as_bool`. -/
def JValue.asBool : JValue → Option Bool
  | .bool b => some b
  | _ => none

/-- The artifact metadata map.  `serde_json::Map` iterates in key order;
the model keeps an association list and never relies on iteration order. -/
abbrev Metadata := List (List Char × JValue)

/-- Map lookup (`metadata.get(k)`). -/
def metaGet (m : Metadata) (k : List Char) : Option JValue :=
  (m.find? (fun kv => kv.1 == k)).map (·.2)

/-- Map insert (`metadata.insert(k, v)`): overwrite an existing key,
otherwise append. -/
def metaInsert (m : Metadata) (k : List Char) (v : JValue) : Metadata :=
  if m.any (fun kv => kv.1 == k) then
    m.map (fun kv => if kv.1 == k then (k, v) else kv)
  else m ++ [(k, v)]

/-! ## Output-path templating (`src/stages/mod.rs` lines 297-312) -/

/-- Rust `str::replace(pat, rep)`: replace every non-overlapping
occurrence of `pat`, scanning left to right.  Fuel-indexed structural
recursion; `strReplace` below supplies `s.length`, which is always
enough because every step consumes at least one character of `s` (the
patterns used by the code are never empty; an empty pattern is treated
as matching nowhere). -/
def strReplaceAux : Nat → List Char → List Char → List Char → List Char
  | _, [], _, _ => []
  | 0, s, _, _ => s
  | fuel + 1, c :: rest, pat, rep =>
    if pat.isPrefixOf (c :: rest) ∧ pat ≠ [] then
      rep ++ strReplaceAux fuel ((c :: rest).drop pat.length) pat rep
    else c :: strReplaceAux fuel rest pat rep

def strReplace (s pat rep : List Char) : List Char :=
  strReplaceAux s.length s pat rep

/-- `OutputSpec` (src/pipeline.rs lines 18-23).  The Rust field
`structure` is a Lean keyword, so the template field is renamed. -/
structure OutputSpec where
  directory : List Char
  outStructure : List Char

/-! ## Quality metrics (`src/quality.rs`)

Floats are idealised as real numbers.  The images compared are the
`to_rgb8` / `to_luma32f` views of `DynamicImage`; the model works
directly on the RGB8 pixel buffer (row-major, channels `0..=255`). -/

structure RgbImage where
  width : Nat
  height : Nat
  pixels : List (Nat × Nat × Nat)
deriving DecidableEq, Repr

/-- Well-formed image: the pixel buffer has `width * height` entries and
every channel is a byte. -/
def RgbImage.Wf (img : RgbImage) : Prop :=
  img.pixels.length = img.width * img.height ∧
  ∀ p ∈ img.pixels, p.1 ≤ 255 ∧ p.2.1 ≤ 255 ∧ p.2.2 ≤ 255

/-- Models the image crate's `Rgb<u8> → Luma<f32>` conversion used by
`to_luma32f` (external collaborator): SRGB luma coefficients on channels
scaled to `[0, 1]`; float rounding idealised over `ℝ`.  The coefficients
sum to 1, so the result lies in `[0, 1]` for byte channels. -/
noncomputable def luma (p : Nat × Nat × Nat) : ℝ :=
  (0.2126 * p.1 + 0.7152 * p.2.1 + 0.0722 * p.2.2) / 255

/-- `mean_squared_error` (src/quality.rs lines 40-52): sum of squared
per-channel differences over zipped pixels, divided by
`width * height * 3` of the reference. -/
noncomputable def mean_squared_error (reference candidate : RgbImage) : ℝ :=
  ((reference.pixels.zip candidate.pixels).map fun pq =>
      ((pq.1.1 : ℝ) - pq.2.1) ^ 2 + ((pq.1.2.1 : ℝ) - pq.2.2.1) ^ 2
        + ((pq.1.2.2 : ℝ) - pq.2.2.2) ^ 2).sum
    / ((reference.width * reference.height * 3 : Nat) : ℝ)

/-- `peak_signal_to_noise_ratio` (src/quality.rs lines 54-60): `+∞`
(modelled as `⊤ : EReal`) when the MSE is exactly zero, otherwise
`20·log10 255 − 10·log10 mse`. -/
noncomputable def peak_signal_to_noise_ratio (mse : ℝ) : EReal :=
  if mse = 0 then ⊤
  else ((20 * Real.logb 10 255 - 10 * Real.logb 10 mse : ℝ) : EReal)

/-- `mean` (src/quality.rs lines 84-86) over the luma view. -/
noncomputable def imgMean (img : RgbImage) : ℝ :=
  (img.pixels.map luma).sum / ((img.width * img.height : Nat) : ℝ)

/-- `variance` (src/quality.rs lines 88-97). -/
noncomputable def imgVariance (img : RgbImage) (mean : ℝ) : ℝ :=
  (img.pixels.map fun p => (luma p - mean) ^ 2).sum
    / ((img.width * img.height : Nat) : ℝ)

/-- `covariance` (src/quality.rs lines 99-111). -/
noncomputable def imgCovariance (reference candidate : RgbImage)
    (mean_ref mean_cand : ℝ) : ℝ :=
  ((reference.pixels.zip candidate.pixels).map fun pq =>
      (luma pq.1 - mean_ref) * (luma pq.2 - mean_cand)).sum
    / ((reference.width * reference.height : Nat) : ℝ)

/-- `structural_similarity` (src/quality.rs lines 62-82). -/
noncomputable def structural_similarity (reference candidate : RgbImage) :
    Except String ℝ :=
  let mean_ref := imgMean reference
  let mean_cand := imgMean candidate
  let cov := imgCovariance reference candidate mean_ref mean_cand
  let var_ref := imgVariance reference mean_ref
  let var_cand := imgVariance candidate mean_cand
  let c1 : ℝ := (0.01 * 255) ^ 2
  let c2 : ℝ := (0.03 * 255) ^ 2
  let numerator := (2 * mean_ref * mean_cand + c1) * (2 * cov + c2)
  let denominator := (mean_ref ^ 2 + mean_cand ^ 2 + c1) * (var_ref + var_cand + c2)
  if denominator = 0 then .error "SSIM denominator is zero"
  else .ok (numerator / denominator)

structure QualityMetrics where
  mse : ℝ
  psnr : EReal
  ssim : ℝ

/-- `compute_metrics` (src/quality.rs lines 14-25), with
`ensure_dimensions_match` (lines 27-38) folded in; the formatted
mismatch message is abbreviated. -/
noncomputable def compute_metrics (reference candidate : RgbImage) :
    Except String QualityMetrics :=
  if reference.width = candidate.width ∧ reference.height = candidate.height then
    let mse := mean_squared_error reference candidate
    let psnr := peak_signal_to_noise_ratio mse
    match structural_similarity reference candidate with
    | .error e => .error e
    | .ok ssim => .ok ⟨mse, psnr, ssim⟩
  else .error "Cannot compute metrics: dimension mismatch"

/-! ## Video data model (`src/video/mod.rs`) -/

inductive PixelFormat where
  | rgb | rgba | yuv420 | yuv444 | unknown
deriving DecidableEq, Repr

inductive FramePlanes where
  | rgb (data : List Nat)
  | rgba (data : List Nat)
  | yuv420 (y u v : List Nat)
  | yuv444 (y u v : List Nat)
  | externalHandle
deriving DecidableEq, Repr

/-- `FrameRate`; the Rust variant `Variable` is renamed (Lean keyword). -/
inductive FrameRate where
  | constant (numerator denominator : Nat)
  | variableRate
deriving DecidableEq, Repr

inductive ColorSpace where
  | bt601 | bt709 | bt2020 | srgb | unknown
deriving DecidableEq, Repr

inductive VideoCodec where
  | raw | h264 | h265 | vp9 | av1 | unknown
deriving DecidableEq, Repr

/-- Rust `{:?}` formatting of `VideoCodec`. -/
def VideoCodec.debugFmt : VideoCodec → List Char
  | .raw => "Raw".data
  | .h264 => "H264".data
  | .h265 => "H265".data
  | .vp9 => "Vp9".data
  | .av1 => "Av1".data
  | .unknown => "Unknown".data

inductive AudioCodec where
  | pcmF32 | pcmS16 | aac | opus | unknown
deriving DecidableEq, Repr

/-- `VideoFrame`; `std::time::Duration` is modelled as rational seconds. -/
structure VideoFrame where
  width : Nat
  height : Nat
  pixel_format : PixelFormat
  data : FramePlanes
  timestamp : ℚ
  duration : ℚ
  keyframe : Bool
deriving DecidableEq, Repr

structure VideoStream where
  codec : VideoCodec
  frame_rate : FrameRate
  frames : List VideoFrame
  color_space : ColorSpace
deriving DecidableEq, Repr

structure AudioBuffer where
  sample_rate : Nat
  channels : Nat
  samples : List ℚ
deriving DecidableEq, Repr

structure AudioStream where
  codec : AudioCodec
  buffers : List AudioBuffer
deriving DecidableEq, Repr

structure SubtitleCue where
  start : ℚ
  stop : ℚ
  text : List Char
deriving DecidableEq, Repr

inductive SubtitleCodec where
  | srt | webVtt | ass | unknown
deriving DecidableEq, Repr

structure SubtitleStream where
  codec : SubtitleCodec
  cues : List SubtitleCue
deriving DecidableEq, Repr

/-- `MediaStreams` (src/video/mod.rs lines 70-76). -/
structure MediaStreams where
  video : Option VideoStream
  audio : Option AudioStream
  subtitles : List SubtitleStream
  duration : Option ℚ
deriving DecidableEq, Repr

def MediaStreams.default : MediaStreams := ⟨none, none, [], none⟩

/-! ## Artifact model (`src/pipeline.rs` lines 29-82) -/

/-- The per-input mutable carrier.  Paths are character lists.  The extra
`media` field models the media-streams slot assumed by
`src/stages/video.rs` (`artifact.media`); the `Artifact` in
`src/pipeline.rs` does not declare it and the video stages are not wired
into the module tree, so the field is carried here solely to give those
stages a faithful state to act on. -/
structure Artifact where
  input_path : List Char
  stem : List Char
  data : List Nat
  format : Option (List Char)
  original_image : Option RgbImage
  image : Option RgbImage
  media : MediaStreams
  metadata : Metadata

def Artifact.set_format (a : Artifact) (fmt : List Char) : Artifact :=
  { a with format := some fmt }

def Artifact.replace_data (a : Artifact) (data : List Nat) : Artifact :=
  { a with data := data }

def Artifact.set_image (a : Artifact) (image : RgbImage) : Artifact :=
  { a with image := some image }

/-- `Artifact::set_original_image` (src/pipeline.rs lines 79-81):
unconditional overwrite. -/
def Artifact.set_original_image (a : Artifact) (image : RgbImage) : Artifact :=
  { a with original_image := some image }

/-- `resolve_output_path` (src/stages/mod.rs lines 297-312, duplicated in
src/stages/video.rs lines 145-160): substitute `{stem}`, then `{ext}`,
then — in map order — every string-valued metadata key's placeholder,
each with replace-all semantics; the resulting file name is pushed onto
the output directory (modelled with a `/` separator). -/
def resolve_file_name (spec : OutputSpec) (a : Artifact) (extension : List Char) :
    List Char :=
  let f1 := strReplace spec.outStructure "{stem}".data a.stem
  let f2 := strReplace f1 "{ext}".data extension
  a.metadata.foldl
    (fun acc kv =>
      match kv.2.asStr with
      | some s => strReplace acc ('{' :: kv.1 ++ ['}']) s
      | none => acc)
    f2

def resolve_output_path (spec : OutputSpec) (a : Artifact) (extension : List Char) :
    List Char :=
  spec.directory ++ '/' :: resolve_file_name spec a extension

/-! ## Image stages (`src/stages/mod.rs`)

The image codecs themselves (`image::load_from_memory_with_format`,
`encode_with_options`, `imageops` resampling) are external collaborators;
each stage model takes them as explicit function parameters.  Format
inference (`infer_format`) is folded into the decoder parameter, which
returns the decoded image together with the format label.  Filesystem
writes have no observable effect on the artifact and are not modelled.
`record_encoder_metadata` only echoes `output.encoder.*` entries and is
likewise outside every claim; it is omitted from the encode model. -/

/-- `DecodeStage::run` (src/stages/mod.rs lines 58-81). -/
noncomputable def decodeRun (dec : List Nat → Except String (RgbImage × List Char))
    (a : Artifact) : Except String Artifact :=
  match dec a.data with
  | .error e => .error e
  | .ok (decoded, label) =>
    let a1 := (((a.set_original_image decoded).set_image decoded).set_format label)
    let md := metaInsert (metaInsert a1.metadata "image.width".data (.num decoded.width))
      "image.height".data (.num decoded.height)
    .ok { a1 with metadata := md }

/-- `AnnotateStage::run` (src/stages/mod.rs lines 108-118). -/
def annotateRun (key : List Char) (value : JValue) (a : Artifact) :
    Except String Artifact :=
  .ok { a with metadata := metaInsert a.metadata key value }

/-- `record_dimensions` (src/stages/mod.rs lines 711-718) for the
`image` prefix. -/
noncomputable def record_image_dimensions (a : Artifact) (img : RgbImage) : Artifact :=
  let md := metaInsert (metaInsert a.metadata "image.width".data (.num img.width))
    "image.height".data (.num img.height)
  { a with metadata := md }

/-- `ResizeStage::run` (src/stages/mod.rs lines 159-193); the resampling
operation is the `resample` parameter. -/
noncomputable def resizeRun (resample : RgbImage → RgbImage)
    (width height : Nat) (filterName modeName : List Char) (a : Artifact) :
    Except String Artifact :=
  match a.image with
  | none => .error "resize stage requires a decoded image"
  | some image =>
    let resized := resample image
    let a1 := a.set_image resized
    let md := metaInsert (metaInsert (metaInsert (metaInsert a1.metadata
      "resize.width".data (.num width))
      "resize.height".data (.num height))
      "resize.filter".data (.str filterName))
      "resize.mode".data (.str modeName)
    let a2 := { a1 with metadata := md }
    .ok (record_image_dimensions a2 resized)

/-- `EncodeStage::run` (src/stages/mod.rs lines 223-294): set the format
label, require a current image, encode, resolve the output path (against
the pre-encode metadata), attempt a round-trip decode of the written
bytes (`output.decode_supported`), then replace the artifact data and
record the output metadata. -/
noncomputable def encodeRun (enc : RgbImage → Except String (List Nat))
    (dec : List Nat → Except String (RgbImage × List Char))
    (label extension : List Char) (out : OutputSpec) (a : Artifact) :
    Except String Artifact :=
  let a0 := a.set_format label
  match a0.image with
  | none => .error "encode stage requires a decoded image"
  | some image =>
    match enc image with
    | .error e => .error e
    | .ok buffer =>
      let resolved := resolve_output_path out a0 extension
      let a1 :=
        match dec buffer with
        | .ok (decoded, _) =>
          let ad := a0.set_image decoded
          let mdOk := metaInsert ad.metadata "output.decode_supported".data (.bool true)
          record_image_dimensions { ad with metadata := mdOk } decoded
        | .error e =>
          let mdErr := metaInsert (metaInsert a0.metadata
            "output.decode_supported".data (.bool false))
            "output.decode_warning".data (.str e.data)
          { a0 with image := none, metadata := mdErr }
      let a2 := a1.replace_data buffer
      let mdOut := metaInsert (metaInsert (metaInsert (metaInsert a2.metadata
        "output_path".data (.str resolved))
        "output.extension".data (.str extension))
        "output.format".data (.str label))
        "output.size_bytes".data (.num buffer.length)
      .ok { a2 with metadata := mdOut }

/-! ## Annex-B decoding (`src/video/h264.rs` lines 17-104, 138-260) -/

structure SequenceState where
  width : Nat
  height : Nat
  frame_rate : FrameRate
deriving DecidableEq, Repr

def SequenceState.default : SequenceState := ⟨0, 0, .constant 30 1⟩

/-- `skip_scaling_list` (src/video/h264.rs lines 232-247); `last_scale`
and `next_scale` are `i32`, and `%` is the sign-truncating `Int.tmod`. -/
def skipScalingListLoop : Nat → BitReader → Int → Int → Except String BitReader
  | 0, r, _, _ => .ok r
  | n + 1, r, last_scale, next_scale =>
    if next_scale ≠ 0 then
      match r.read_se with
      | .error e => .error e
      | .ok (delta_scale, r') =>
        let next' := Int.tmod (last_scale + delta_scale + 256) 256
        let last' := if next' ≠ 0 then next' else last_scale
        skipScalingListLoop n r' last' next'
    else skipScalingListLoop n r last_scale next_scale

def skip_scaling_list (r : BitReader) (size : Nat) : Except String BitReader :=
  skipScalingListLoop size r 8 8

/-- The `seq_scaling_matrix_present` loop of `parse_sps` (lines 154-162):
for `i in 0..8`, read a presence bit and skip a 16- or 64-entry scaling
list when present. -/
def spsScalingLoop : Nat → Nat → BitReader → Except String BitReader
  | 0, _, r => .ok r
  | n + 1, i, r => do
    let (present, r') ← r.read_bits 1
    let r'' ← if present = 1 then skip_scaling_list r' (if i < 6 then 16 else 64) else pure r'
    spsScalingLoop n (i + 1) r''

/-- `parse_sps` (src/video/h264.rs lines 138-207).  The final
width/height arithmetic is `u32`; the model computes in `Nat` with
truncated subtraction and reduces mod `2^32` for the stored fields
(debug-build overflow panics in this arithmetic are not modelled; no
claim depends on these values). -/
def parse_sps (payload : List Nat) (_seq : SequenceState) :
    Except String SequenceState := do
  let rbsp := remove_emulation_prevention payload
  let r : BitReader := ⟨rbsp, 0⟩
  let (_profile_idc, r) ← r.read_bits 8
  let (_constraint, r) ← r.read_bits 8
  let (_level_idc, r) ← r.read_bits 8
  let (_seq_parameter_set_id, r) ← r.read_ue
  let (chroma_format_idc, r) ← r.read_ue
  let r ← if chroma_format_idc = 3 then do
      let (_, r') ← r.read_bits 1
      pure r'
    else pure r
  let (_bit_depth_luma, r) ← r.read_ue
  let (_bit_depth_chroma, r) ← r.read_ue
  let (_qpprime, r) ← r.read_bits 1
  let (seq_scaling_matrix_present_flag, r) ← r.read_bits 1
  let r ← if seq_scaling_matrix_present_flag = 1 then spsScalingLoop 8 0 r else pure r
  let (_log2_max_frame_num, r) ← r.read_ue
  let (pic_order_cnt_type, r) ← r.read_ue
  let r ← if pic_order_cnt_type = 0 then do
      let (_, r') ← r.read_ue
      pure r'
    else pure r
  let (_max_num_ref_frames, r) ← r.read_ue
  let (_gaps, r) ← r.read_bits 1
  let (pic_width_in_mbs_minus1, r) ← r.read_ue
  let (pic_height_in_map_units_minus1, r) ← r.read_ue
  let (frame_mbs_only_flag, r) ← r.read_bits 1
  let r ← if frame_mbs_only_flag = 0 then do
      let (_, r') ← r.read_bits 1
      pure r'
    else pure r
  let (_direct_8x8, r) ← r.read_bits 1
  let (frame_cropping_flag, r) ← r.read_bits 1
  let (crop_left, crop_right, crop_top, crop_bottom, _r) ←
    if frame_cropping_flag = 1 then do
      let (cl, r1) ← r.read_ue
      let (cr, r2) ← r1.read_ue
      let (ct, r3) ← r2.read_ue
      let (cb, r4) ← r3.read_ue
      pure (cl, cr, ct, cb, r4)
    else pure (0, 0, 0, 0, r)
  let width_in_mbs := pic_width_in_mbs_minus1 + 1
  let height_in_map_units := pic_height_in_map_units_minus1 + 1
  let frame_height_in_mbs :=
    if frame_mbs_only_flag = 1 then height_in_map_units else height_in_map_units * 2
  let width := width_in_mbs * 16 - 2 * (crop_left + crop_right)
  let height := frame_height_in_mbs * 16 - 2 * (crop_top + crop_bottom)
  pure { width := width % 4294967296, height := height % 4294967296,
         frame_rate := .constant 30 1 }

/-- `parse_pps` (src/video/h264.rs lines 209-214). -/
def parse_pps (payload : List Nat) : Except String Unit :=
  if payload = [] then .error "pps payload is empty" else .ok ()

/-- `frame_duration` (src/video/h264.rs lines 249-260), in rational
seconds. -/
def frame_duration (frame_rate : FrameRate) : ℚ :=
  match frame_rate with
  | .constant numerator denominator =>
    if numerator > 0 then (denominator : ℚ) / numerator else 1 / 30
  | _ => 1 / 30

/-- The two overflow panics modelled inside `BitReader` (the shift in
`read_ue`, the increment in `read_se`); every other failure `parse_sps`
can produce is an `anyhow::Result` error (`bitstream overread`).  The
`if let Err` in `decode_annex_b` catches only the latter; a panic
unwinds. -/
def h264PanicMsg (m : String) : Bool :=
  m = "attempt to shift left with overflow" || m = "attempt to add with overflow"

/-- The NAL traversal of `decode_annex_b` (lines 49-84). -/
def annexLoop : List NalUnit → SequenceState → List VideoFrame →
    Except String (SequenceState × List VideoFrame)
  | [], seq, frames => .ok (seq, frames)
  | nal :: rest, seq, frames =>
    if nal.nal_type = 7 then
      match parse_sps nal.payload seq with
      | .ok seq' => annexLoop rest seq' frames
      | .error e =>
        if h264PanicMsg e then .error e
        else annexLoop rest
          { seq with width := max seq.width 640, height := max seq.height 360 } frames
    else if nal.nal_type = 8 then
      match parse_pps nal.payload with
      | .error e => .error e
      | .ok _ => annexLoop rest seq frames
    else if nal.nal_type = 5 ∨ nal.nal_type = 1 then
      let seq' := { seq with
        width := if seq.width = 0 then 640 else seq.width,
        height := if seq.height = 0 then 360 else seq.height }
      let fd := frame_duration seq'.frame_rate
      let frame : VideoFrame :=
        ⟨max seq'.width 1, max seq'.height 1, .yuv420, .yuv420 [] [] [], 0, fd,
          nal.nal_type = 5⟩
      annexLoop rest seq' (frames ++ [frame])
    else annexLoop rest seq frames

/-- `decode_annex_b` (src/video/h264.rs lines 44-104). -/
def decode_annex_b (data : List Nat) (streams : MediaStreams) :
    Except String MediaStreams :=
  match split_annex_b data with
  | .error e => .error e
  | .ok nals =>
    match annexLoop nals SequenceState.default [] with
    | .error e => .error e
    | .ok (seq, frames) =>
      if frames = [] then .error "no video frames decoded"
      else .ok { streams with
        video := some ⟨.h264, seq.frame_rate, frames, .bt709⟩ }

/-! ## ISO-BMFF demuxer (`src/video/container.rs`) -/

/-- Big-endian `u32` at `off` (bytes reduced mod 256 as `u8`). -/
def read_u32_be (data : List Nat) (off : Nat) : Nat :=
  (data.getD off 0 % 256) * 16777216 + (data.getD (off + 1) 0 % 256) * 65536
    + (data.getD (off + 2) 0 % 256) * 256 + (data.getD (off + 3) 0 % 256)

/-- Failure modes of the demuxer.  `err` is an `anyhow::Result` error
(`bail!` / `anyhow!` / `.context`), which callers can observe and catch
with a `match` on the `Result`; `panic` is an uncaught Rust panic from an
out-of-bounds slice index, which unwinds past every `Result` match, so no
arm of the model may convert it back into a recoverable outcome. -/
inductive DemuxError where
  | err (msg : String)
  | panic (msg : String)
deriving DecidableEq, Repr

/-- Rust slice indexing `&buf[off..off+4]` panics when out of range. -/
def read_u32_at (data : List Nat) (off : Nat) : Except DemuxError Nat :=
  if off + 4 ≤ data.length then .ok (read_u32_be data off)
  else .error (.panic "index out of range")

/-- Big-endian `u16` at `off`, with the same panic model. -/
def read_u16_at (data : List Nat) (off : Nat) : Except DemuxError Nat :=
  if off + 2 ≤ data.length then
    .ok ((data.getD off 0 % 256) * 256 + data.getD (off + 1) 0 % 256)
  else .error (.panic "index out of range")

def sliceAt (data : List Nat) (start len : Nat) : List Nat :=
  (data.drop start).take len

/-- `std::str::from_utf8(..).unwrap_or("????")` on a FourCC: the model
decodes pure-ASCII tags and falls back to `"????"` otherwise (a valid
multi-byte UTF-8 tag would differ from `"????"`, but the demuxer only
compares tags against ASCII literals, so the observable behaviour
agrees). -/
def fourccString (bs : List Nat) : String :=
  if bs.all (· < 128) then ⟨bs.map Char.ofNat⟩ else "????"

def strBytes (s : String) : List Nat := s.data.map (·.toNat)

/-- `read_atom` (src/video/container.rs lines 93-121): returns `none` at
end of buffer, otherwise the atom kind, its payload, and the position
just past the atom. -/
def read_atom (data : List Nat) (pos : Nat) :
    Except DemuxError (Option (String × List Nat × Nat)) :=
  if data.length ≤ pos then .ok none
  else if data.length < pos + 4 then .error (.err "atom size")
  else
    let size := read_u32_be data pos
    if size < 8 then .error (.err "invalid atom size")
    else if data.length < pos + 8 then .error (.err "atom kind")
    else
      let kind := fourccString (sliceAt data (pos + 4) 4)
      let payload_len := size - 8
      let stop := pos + 8 + payload_len
      if data.length < stop then .error (.err "atom payload exceeds buffer bounds")
      else .ok (some (kind, sliceAt data (pos + 8) payload_len, stop))

structure VideoTrack where
  codec : VideoCodec
  width : Nat
  height : Nat
  timescale : Nat
  duration : Nat
  frame_count : Nat
deriving DecidableEq, Repr

structure AudioTrack where
  codec : AudioCodec
  sample_rate : Nat
  channels : Nat
  timescale : Nat
  duration : Nat
deriving DecidableEq, Repr

structure TrackCollector where
  video : Option VideoTrack
  audio : Option AudioTrack
deriving DecidableEq, Repr

inductive ParsedTrack where
  | video (t : VideoTrack)
  | audio (t : AudioTrack)
  | unknown
deriving DecidableEq, Repr

/-- The `stbl` grandchild scan of `parse_media` (lines 212-217):
remember the latest `stsd` payload. -/
def stsdScan (data : List Nat) : Nat → Nat → Option (List Nat) →
    Except DemuxError (Option (List Nat))
  | 0, _, acc => .ok acc
  | fuel + 1, pos, acc =>
    match read_atom data pos with
    | .error e => .error e
    | .ok none => .ok acc
    | .ok (some (kind, payload, next)) =>
      stsdScan data fuel next (if kind = "stsd" then some payload else acc)

/-- The `minf` child scan of `parse_media` (lines 208-220). -/
def minfScan (data : List Nat) : Nat → Nat → Option (List Nat) →
    Except DemuxError (Option (List Nat))
  | 0, _, acc => .ok acc
  | fuel + 1, pos, acc =>
    match read_atom data pos with
    | .error e => .error e
    | .ok none => .ok acc
    | .ok (some (kind, payload, next)) =>
      if kind = "stbl" then
        match stsdScan payload (payload.length + 1) 0 acc with
        | .error e => .error e
        | .ok acc' => minfScan data fuel next acc'
      else minfScan data fuel next acc

/-- The atom-collection loop of `parse_media` (lines 187-223). -/
def parseMediaLoop (data : List Nat) :
    Nat → Nat → Option (List Nat) → Option Nat → Option Nat → Option (List Nat) →
    Except DemuxError (Option (List Nat) × Option Nat × Option Nat × Option (List Nat))
  | 0, _, hdlr, ts, dur, stsd => .ok (hdlr, ts, dur, stsd)
  | fuel + 1, pos, hdlr, ts, dur, stsd =>
    match read_atom data pos with
    | .error e => .error e
    | .ok none => .ok (hdlr, ts, dur, stsd)
    | .ok (some (kind, payload, next)) =>
      if kind = "hdlr" then
        let hdlr' := if 12 ≤ payload.length then some (sliceAt payload 8 4) else hdlr
        parseMediaLoop data fuel next hdlr' ts dur stsd
      else if kind = "mdhd" then
        match payload.head? with
        | none => .error (.err "mdhd missing version")
        | some version =>
          let offs := if version = 1 then (20, 24) else (12, 16)
          match read_u32_at payload offs.1 with
          | .error e => .error e
          | .ok tsv =>
            match read_u32_at payload offs.2 with
            | .error e => .error e
            | .ok durv => parseMediaLoop data fuel next hdlr (some tsv) (some durv) stsd
      else if kind = "minf" then
        match minfScan payload (payload.length + 1) 0 stsd with
        | .error e => .error e
        | .ok stsd' => parseMediaLoop data fuel next hdlr ts dur stsd'
      else parseMediaLoop data fuel next hdlr ts dur stsd

/-- `parse_media` (src/video/container.rs lines 176-289).  The only
construction site of a `VideoTrack` sets `frame_count := 0`. -/
def parse_media (data : List Nat) (tk_timescale tk_duration : Option Nat) :
    Except DemuxError ParsedTrack :=
  match parseMediaLoop data (data.length + 1) 0 none none none none with
  | .error e => .error e
  | .ok (hdlr, mdhd_ts, mdhd_dur, stsd?) =>
    match hdlr with
    | none => .ok .unknown
    | some handler =>
      let timescale := (mdhd_ts.or tk_timescale).getD 1
      let duration := (mdhd_dur.or tk_duration).getD 0
      match stsd? with
      | none => .error (.err "stsd not found")
      | some stsd =>
        if stsd.length < 16 then .error (.err "invalid stsd atom")
        else
          let entry_count := read_u32_be stsd 4
          if entry_count = 0 then .ok .unknown
          else
            let entry_size := read_u32_be stsd 8
            if stsd.length < entry_size + 8 then .error (.err "stsd entry exceeds buffer")
            else if stsd.length < 12 + entry_size then .error (.panic "index out of range")
            else
              let entry_data := sliceAt stsd 12 entry_size
              if entry_data.length < 8 then .error (.panic "index out of range")
              else
                let codec_fourcc := sliceAt entry_data 4 4
                if handler = strBytes "vide" then
                  match read_u16_at entry_data 32 with
                  | .error e => .error e
                  | .ok width =>
                    match read_u16_at entry_data 34 with
                    | .error e => .error e
                    | .ok height =>
                      let codec :=
                        if codec_fourcc = strBytes "avc1" then VideoCodec.h264
                        else if codec_fourcc = strBytes "hvc1" then VideoCodec.h265
                        else if codec_fourcc = strBytes "vp09" then VideoCodec.vp9
                        else if codec_fourcc = strBytes "av01" then VideoCodec.av1
                        else VideoCodec.unknown
                      .ok (.video ⟨codec, width, height, timescale, duration, 0⟩)
                else if handler = strBytes "soun" then
                  match read_u16_at entry_data 16 with
                  | .error e => .error e
                  | .ok channels =>
                    match read_u32_at entry_data 24 with
                    | .error e => .error e
                    | .ok sample_rate_fixed =>
                      let sample_rate := sample_rate_fixed >>> 16
                      let codec :=
                        if codec_fourcc = strBytes "lpcm" then AudioCodec.pcmS16
                        else if codec_fourcc = strBytes "f32 " then AudioCodec.pcmF32
                        else if codec_fourcc = strBytes "aac " then AudioCodec.aac
                        else if codec_fourcc = strBytes "Opus" then AudioCodec.opus
                        else AudioCodec.unknown
                      .ok (.audio ⟨codec, sample_rate, channels, timescale, duration⟩)
                else .ok .unknown

/-- The atom-collection loop of `collect_trak` (lines 139-158). -/
def collectTrakLoop (data : List Nat) :
    Nat → Nat → Option Nat → Option Nat → Option (List Nat) →
    Except DemuxError (Option Nat × Option Nat × Option (List Nat))
  | 0, _, ts, dur, mdia => .ok (ts, dur, mdia)
  | fuel + 1, pos, ts, dur, mdia =>
    match read_atom data pos with
    | .error e => .error e
    | .ok none => .ok (ts, dur, mdia)
    | .ok (some (kind, payload, next)) =>
      if kind = "tkhd" then
        match payload.head? with
        | none => .error (.err "tkhd missing version")
        | some version =>
          let offs := if version = 1 then (28, 20) else (24, 12)
          match read_u32_at payload offs.2 with
          | .error e => .error e
          | .ok tsv =>
            match read_u32_at payload offs.1 with
            | .error e => .error e
            | .ok durv => collectTrakLoop data fuel next (some tsv) (some durv) mdia
      else if kind = "mdia" then collectTrakLoop data fuel next ts dur (some payload)
      else collectTrakLoop data fuel next ts dur mdia

/-- `collect_trak` (src/video/container.rs lines 133-168). -/
def collect_trak (data : List Nat) (collector : TrackCollector) :
    Except DemuxError TrackCollector :=
  match collectTrakLoop data (data.length + 1) 0 none none none with
  | .error e => .error e
  | .ok (ts, dur, mdia?) =>
    match mdia? with
    | none => .error (.err "trak missing mdia")
    | some mdia =>
      match parse_media mdia ts dur with
      | .error e => .error e
      | .ok (.video t) => .ok { collector with video := some t }
      | .ok (.audio t) => .ok { collector with audio := some t }
      | .ok .unknown => .ok collector

/-- `collect_moov` (src/video/container.rs lines 123-131). -/
def collectMoovLoop (data : List Nat) :
    Nat → Nat → TrackCollector → Except DemuxError TrackCollector
  | 0, _, collector => .ok collector
  | fuel + 1, pos, collector =>
    match read_atom data pos with
    | .error e => .error e
    | .ok none => .ok collector
    | .ok (some (kind, payload, next)) =>
      if kind = "trak" then
        match collect_trak payload collector with
        | .error e => .error e
        | .ok collector' => collectMoovLoop data fuel next collector'
      else collectMoovLoop data fuel next collector

/-- The top-level atom walk of `Mp4Demuxer::demux` (lines 56-63). -/
def demuxLoop (data : List Nat) :
    Nat → Nat → TrackCollector → Except DemuxError TrackCollector
  | 0, _, collector => .ok collector
  | fuel + 1, pos, collector =>
    match read_atom data pos with
    | .error e => .error e
    | .ok none => .ok collector
    | .ok (some (kind, payload, next)) =>
      if kind = "moov" then
        match collectMoovLoop payload (payload.length + 1) 0 collector with
        | .error e => .error e
        | .ok collector' => demuxLoop data fuel next collector'
      else demuxLoop data fuel next collector

/-- `demux_media` / `Mp4Demuxer::demux` (src/video/container.rs lines
56-84, 297-299): walk the atoms, then publish the collected tracks;
the video stream always carries an empty frame list and the placeholder
frame rate `frame_count / max(duration, 1)` with `frame_count = 0`. -/
def demux_media (data : List Nat) : Except DemuxError MediaStreams :=
  match demuxLoop data (data.length + 1) 0 ⟨none, none⟩ with
  | .error e => .error e
  | .ok collector =>
    let video := collector.video.map fun v =>
      VideoStream.mk v.codec (.constant v.frame_count (max v.duration 1)) [] .bt709
    let audio := collector.audio.map fun t => AudioStream.mk t.codec []
    .ok ⟨video, audio, [], none⟩

/-! ## Video stages (`src/stages/video.rs`) -/

/-- The demux attempt of `VideoDecodeStage::run` (lines 34-37): the
`match` on the `Result` turns any `Err` into empty `MediaStreams`, but a
panic inside the demuxer unwinds past it and aborts the stage. -/
def demux_or_default (data : List Nat) : Except String MediaStreams :=
  match demux_media data with
  | .ok streams => .ok streams
  | .error (.err _) => .ok MediaStreams.default
  | .error (.panic m) => .error m

/-- The fall-through condition of `VideoDecodeStage::run` (line 38):
`media.video.as_ref().map_or(true, |v| v.frames.is_empty())`. -/
def mp4_frames_missing (media : MediaStreams) : Bool :=
  match media.video with
  | none => true
  | some v => v.frames.isEmpty

/-- The common tail of `VideoDecodeStage::run` (lines 43-65): require a
video stream, record `video.*` metadata, attach the streams. -/
noncomputable def videoDecodeTail (a : Artifact) (media : MediaStreams) :
    Except String Artifact :=
  match media.video with
  | none => .error "no decodable video stream found"
  | some vs =>
    let md1 := metaInsert a.metadata "video.frame_count".data (.num vs.frames.length)
    let md2 :=
      match vs.frames.head? with
      | some f =>
        metaInsert (metaInsert md1 "video.width".data (.num f.width))
          "video.height".data (.num f.height)
      | none => md1
    let md3 := metaInsert md2 "video.codec".data (.str vs.codec.debugFmt)
    .ok { a with media := media, metadata := md3 }

/-- `VideoDecodeStage::run` (src/stages/video.rs lines 28-66); the
`anyhow` context on a failed Annex-B decode is modelled by prefixing the
message, and a demuxer panic propagates out of the stage. -/
noncomputable def videoDecodeRun (a : Artifact) : Except String Artifact :=
  match demux_or_default a.data with
  | .error m => .error m
  | .ok media0 =>
    if mp4_frames_missing media0 then
      match decode_annex_b a.data media0 with
      | .error e => .error ("failed to decode H.264 Annex B stream: " ++ e)
      | .ok media1 => videoDecodeTail a media1
    else videoDecodeTail a media0

/-- `VideoEncodeStage::run` (src/stages/video.rs lines 96-142):
passthrough write of the artifact's bytes (filesystem effect not
modelled) plus `video.output.*` metadata. -/
noncomputable def videoEncodeRun (format extension : List Char) (out : OutputSpec)
    (a : Artifact) : Except String Artifact :=
  match a.media.video with
  | none => .error "video_encode requires a decoded video stream"
  | some vs =>
    let frame_count := vs.frames.length
    let output_path := resolve_output_path out a extension
    let a1 := a.replace_data a.data
    let md := metaInsert (metaInsert (metaInsert (metaInsert a1.metadata
      "video.output_path".data (.str output_path))
      "video.output.format".data (.str format))
      "video.output.size_bytes".data (.num a1.data.length))
      "video.output.frame_count".data (.num frame_count)
    .ok { a1 with metadata := md }

/-! ## Stage sequences (for the artifact-invariant claims) -/

/-- One stage instance, with the external codec operations carried as
function parameters (see the image-stage section header). -/
inductive StageOp where
  | decode (dec : List Nat → Except String (RgbImage × List Char))
  | annotate (key : List Char) (value : JValue)
  | resize (resample : RgbImage → RgbImage) (width height : Nat)
      (filterName modeName : List Char)
  | encode (enc : RgbImage → Except String (List Nat))
      (dec : List Nat → Except String (RgbImage × List Char))
      (label extension : List Char)
  | videoDecode
  | videoEncode (format extension : List Char)

noncomputable def runStage (out : OutputSpec) : StageOp → Artifact → Except String Artifact
  | .decode dec, a => decodeRun dec a
  | .annotate key value, a => annotateRun key value a
  | .resize resample w h filterName modeName, a => resizeRun resample w h filterName modeName a
  | .encode enc dec label extension, a => encodeRun enc dec label extension out a
  | .videoDecode, a => videoDecodeRun a
  | .videoEncode format extension, a => videoEncodeRun format extension out a

noncomputable def runStages (out : OutputSpec) :
    List StageOp → Artifact → Except String Artifact
  | [], a => .ok a
  | op :: rest, a =>
    match runStage out op a with
    | .error e => .error e
    | .ok a' => runStages out rest a'

/-- Whether a stage op is the decoder stage. -/
def StageOp.isDecode : StageOp → Prop
  | .decode _ => True
  | _ => False

/-! ## Quality gates (`src/recipe.rs` lines 55-64, `src/pipeline.rs`
lines 201-321) -/

/-- `QualityGateSpec` (src/recipe.rs lines 55-64); thresholds are `f64`
options, idealised as reals. -/
structure QualityGateSpec where
  label : Option (List Char)
  min_ssim : Option ℝ
  min_psnr : Option ℝ
  max_mse : Option ℝ

/-- Stands for the formatted message "Quality gate '<label>' failed:
<metric> <observed> <op> <threshold>" (float formatting is not
modelled); each constructor records which check fired and with what
values. -/
inductive GateFailure where
  | ssim (label : Option (List Char)) (observed threshold : ℝ)
  | psnr (label : Option (List Char)) (observed : EReal) (threshold : ℝ)
  | mse (label : Option (List Char)) (observed threshold : ℝ)

/-- The error channel of `evaluate_quality_gates`: the missing-original
hard error, a `compute_metrics` error, or a gate failure (`bail!`). -/
inductive QGError where
  | missingOriginal
  | metricsError (e : String)
  | gateFailed (f : GateFailure)

/-- One iteration of the gate loop (src/pipeline.rs lines 277-311):
check `min_ssim`, then `min_psnr`, then `max_mse`; the first violated
threshold produces the failure. -/
noncomputable def gateCheck (metrics : QualityMetrics) (gate : QualityGateSpec) :
    Option GateFailure :=
  let afterSsim : Option GateFailure :=
    match gate.min_psnr with
    | some t =>
      if metrics.psnr < (t : EReal) then some (.psnr gate.label metrics.psnr t)
      else
        match gate.max_mse with
        | some t' => if metrics.mse > t' then some (.mse gate.label metrics.mse t') else none
        | none => none
    | none =>
      match gate.max_mse with
      | some t' => if metrics.mse > t' then some (.mse gate.label metrics.mse t') else none
      | none => none
  match gate.min_ssim with
  | some t =>
    if metrics.ssim < t then some (.ssim gate.label metrics.ssim t) else afterSsim
  | none => afterSsim

/-- The `for gate in &self.quality_gates` loop with its first-failure
`break`. -/
noncomputable def gatesLoop (metrics : QualityMetrics) :
    List QualityGateSpec → Option GateFailure
  | [] => none
  | gate :: rest =>
    match gateCheck metrics gate with
    | some f => some f
    | none => gatesLoop metrics rest

/-- Declarative violation predicate for a single gate. -/
def GateViolated (metrics : QualityMetrics) (gate : QualityGateSpec) : Prop :=
  (∃ t, gate.min_ssim = some t ∧ metrics.ssim < t) ∨
  (∃ t, gate.min_psnr = some t ∧ metrics.psnr < (t : EReal)) ∨
  (∃ t, gate.max_mse = some t ∧ metrics.mse > t)

/-- Outcome of `evaluate_quality_gates`: the returned value, the artifact
with any metadata mutations, and how often each quality counter was
bumped. -/
structure GateEval where
  result : Except QGError (Option QualityMetrics)
  artifact : Artifact
  quality_passes : Nat
  quality_failures : Nat

/-- `PipelineExecutor::evaluate_quality_gates` (src/pipeline.rs lines
244-321). -/
noncomputable def evaluate_quality_gates (gates : List QualityGateSpec)
    (a : Artifact) : GateEval :=
  if gates.isEmpty then ⟨.ok none, a, 0, 0⟩
  else
    match a.original_image with
    | none => ⟨.error .missingOriginal, a, 0, 0⟩
    | some reference =>
      if (metaGet a.metadata "output.decode_supported".data).bind JValue.asBool
          = some false then
        ⟨.ok none,
          { a with metadata :=
              metaInsert a.metadata "quality.status".data (.str "skipped".data) },
          0, 0⟩
      else
        match a.image with
        | none =>
          ⟨.ok none,
            { a with metadata :=
                metaInsert a.metadata "quality.status".data (.str "skipped".data) },
            0, 0⟩
        | some candidate =>
          match compute_metrics reference candidate with
          | .error e => ⟨.error (.metricsError e), a, 0, 0⟩
          | .ok metrics =>
            match gatesLoop metrics gates with
            | some failure => ⟨.error (.gateFailed failure), a, 0, 1⟩
            | none => ⟨.ok (some metrics), a, 1, 0⟩

/-- `value_from_metric` (src/pipeline.rs lines 354-360): a JSON number
for a finite value, otherwise the float's display string (`inf` /
`-inf`; NaN cannot arise in the idealised metrics). -/
noncomputable def value_from_metric (v : EReal) : JValue :=
  if v = ⊤ then .str "inf".data
  else if v = ⊥ then .str "-inf".data
  else .num v.toReal

/-- The metadata attachment in `execute` (src/pipeline.rs lines
211-221). -/
noncomputable def attach_quality (a : Artifact) (m : QualityMetrics) : Artifact :=
  let md := metaInsert (metaInsert (metaInsert a.metadata
    "quality.mse".data (value_from_metric (m.mse : EReal)))
    "quality.psnr".data (value_from_metric m.psnr))
    "quality.ssim".data (value_from_metric (m.ssim : EReal))
  { a with metadata := md }

/-- The per-input quality step of `execute`: run the gate evaluation,
propagate its error (`?`), and attach `quality.*` on a pass.  Returns
the artifact together with the (pass, failure) counter deltas. -/
noncomputable def quality_step (gates : List QualityGateSpec) (a : Artifact) :
    Except QGError (Artifact × Nat × Nat) :=
  let r := evaluate_quality_gates gates a
  match r.result with
  | .error e => .error e
  | .ok none => .ok (r.artifact, r.quality_passes, r.quality_failures)
  | .ok (some m) => .ok (attach_quality r.artifact m, r.quality_passes, r.quality_failures)

/-! ## Theorems -/

/-! ### C1: executor device negotiation -/

/-- C1 counterexample: the claim states that a stage supporting only GPU
under the `cpu_only` policy always fails, regardless of GPU availability.
In the code, a CPU request is promoted to GPU when the scheduler reports
GPU available (src/pipeline.rs lines 182-187), so under `cpu_only` with
GPU available a GPU-only stage runs on GPU instead of failing. -/
theorem C1_cex :
    negotiate_device ⟨.cpuOnly, true⟩ "upscale" (fun d => d == StageDevice.gpu)
      = .ok .gpu :=
  rfl

/-- C1 (amended): if the stage supports the selected device it runs
there; a GPU request falls back to CPU whenever CPU is supported; a CPU
request is promoted to GPU only when the stage supports GPU *and* the
scheduler reports GPU available; otherwise the run fails with a message
naming the stage and the rejected device.  In particular a GPU-only
stage under `cpu_only` fails exactly when GPU is unavailable. -/
theorem C1_device_negotiation (s : TaskScheduler) (name : String)
    (supports : StageDevice → Bool) :
    (supports (s.select_device name) = true →
      negotiate_device s name supports = .ok (s.select_device name)) ∧
    (s.select_device name = .gpu → supports .gpu = false → supports .cpu = true →
      negotiate_device s name supports = .ok .cpu) ∧
    (s.select_device name = .cpu → supports .cpu = false →
      s.gpu_available = true → supports .gpu = true →
      negotiate_device s name supports = .ok .gpu) ∧
    (supports (s.select_device name) = false →
      (s.select_device name = .gpu → supports .cpu = false) →
      (s.select_device name = .cpu → s.gpu_available = false ∨ supports .gpu = false) →
      negotiate_device s name supports =
        .error ("Stage '" ++ name ++ "' does not support requested device "
          ++ (s.select_device name).debugFmt)) ∧
    (s.policy = .cpuOnly → supports .cpu = false → supports .gpu = true →
      negotiate_device s name supports =
        if s.gpu_available then .ok .gpu
        else .error ("Stage '" ++ name ++ "' does not support requested device "
          ++ StageDevice.cpu.debugFmt)) := by
  obtain ⟨policy, avail⟩ := s
  refine ⟨?_, ?_, ?_, ?_, ?_⟩ <;>
    cases hc : supports StageDevice.cpu <;> cases hg : supports StageDevice.gpu <;>
    cases policy <;> cases avail <;>
    simp_all [negotiate_device, TaskScheduler.select_device, StageDevice.debugFmt]

/-- C1 witness: a CPU-only stage under a GPU-selecting policy is silently
run on CPU. -/
theorem C1_witness :
    negotiate_device ⟨.gpuPreferred, true⟩ "resize" (fun d => d == StageDevice.cpu)
      = .ok .cpu :=
  (C1_device_negotiation ⟨.gpuPreferred, true⟩ "resize"
      (fun d => d == StageDevice.cpu)).2.1 (by decide) (by decide) (by decide)

/-! ### C7: RBSP emulation-prevention removal -/

/-- If `pat` occurs nowhere in `l`, it does not occur at any drop offset. -/
theorem startsWithSeq_drop_eq_false {pat l : List Nat}
    (h : containsSeq pat l = false) (k : Nat) :
    startsWithSeq pat (l.drop k) = false := by
  induction l generalizing k with
  | nil =>
    simp only [containsSeq] at h
    simpa using h
  | cons x xs ih =>
    simp only [containsSeq, Bool.or_eq_false_iff] at h
    cases k with
    | zero => exact h.1
    | succ k => simpa using ih h.2 k

/-- A no-occurrence fact is inherited by the tail. -/
theorem containsSeq_tail_eq_false {pat : List Nat} {x : Nat} {xs : List Nat}
    (h : containsSeq pat (x :: xs) = false) : containsSeq pat xs = false := by
  simp only [containsSeq, Bool.or_eq_false_iff] at h
  exact h.2

/-- C7 (confirmed): `remove_emulation_prevention` is the identity on any
byte sequence that contains no occurrence of `00 00 03`, and whenever
`00 00 03` occurs, exactly the `03` byte of that occurrence is dropped:
writing the input as `a ++ [0,0,3] ++ b` with the marked occurrence the
leftmost one, the output is `a ++ [0,0]` followed by the processed rest. -/
theorem C7_rbsp_law :
    (∀ l : List Nat, containsSeq [0, 0, 3] l = false →
      remove_emulation_prevention l = l) ∧
    (∀ a b : List Nat, containsSeq [0, 0, 3] a = false →
      remove_emulation_prevention (a ++ [0, 0, 3] ++ b)
        = a ++ [0, 0] ++ remove_emulation_prevention b) := by
  have hid : ∀ l : List Nat, containsSeq [0, 0, 3] l = false →
      remove_emulation_prevention l = l := by
    intro l
    induction l using remove_emulation_prevention.induct with
    | case1 x y z rest hcond ih =>
      intro h
      obtain ⟨hx, hy, hz⟩ := hcond
      subst hx; subst hy; subst hz
      simp [containsSeq, startsWithSeq] at h
    | case2 x y z rest hcond ih =>
      intro h
      rw [remove_emulation_prevention, if_neg hcond]
      rw [ih (containsSeq_tail_eq_false h)]
    | case3 l h =>
      intro _
      match l, h with
      | [], _ => rfl
      | [x], _ => rfl
      | [x, y], _ => rfl
      | x :: y :: z :: r, h => exact (h x y z r rfl).elim
  refine ⟨hid, ?_⟩
  intro a
  induction a with
  | nil =>
    intro b _
    simp [remove_emulation_prevention]
  | cons x a' ih =>
    intro b h
    have h' : containsSeq [0, 0, 3] a' = false := containsSeq_tail_eq_false h
    match a' with
    | [] =>
      have hx : ¬ (x = 0 ∧ (0 : Nat) = 0 ∧ (0 : Nat) = 3) := by omega
      simp only [List.nil_append, List.cons_append]
      rw [remove_emulation_prevention, if_neg hx]
      simpa using ih b h'
    | [y] =>
      have hx : ¬ (x = 0 ∧ y = 0 ∧ (0 : Nat) = 3) := by omega
      simp only [List.cons_append, List.nil_append]
      rw [remove_emulation_prevention, if_neg hx]
      simpa using ih b h'
    | y :: z :: a'' =>
      have hx : ¬ (x = 0 ∧ y = 0 ∧ z = 3) := by
        rintro ⟨hx, hy, hz⟩
        subst hx; subst hy; subst hz
        simp [containsSeq, startsWithSeq] at h
      simp only [List.cons_append]
      rw [remove_emulation_prevention, if_neg hx]
      have := ih b h'
      simp only [List.cons_append] at this ⊢
      rw [this]

/-! ### C2: Annex-B splitting of a single start code plus payload -/

theorem getD_eq_headD_drop (l : List Nat) (m : Nat) :
    l.getD m 0 = (l.drop m).headD 0 := by
  induction l generalizing m with
  | nil => simp
  | cons x xs ih =>
    cases m with
    | zero => simp
    | succ m =>
      simp only [List.getD_cons_succ, List.drop_succ_cons]
      exact ih m

/-- If no start code occurs at or after `i₀`, the inner scan runs to the
stop index `data.length - 3` (or stays put if already past it). -/
theorem findNalEnd_eq (d : List Nat) (i₀ : Nat)
    (hno : ∀ j, i₀ ≤ j → startsWithSeq [0, 0, 1] (d.drop j) = false) :
    ∀ fuel i, i₀ ≤ i → d.length ≤ fuel + i + 3 →
      findNalEnd d fuel i = max i (d.length - 3) := by
  intro fuel
  induction fuel with
  | zero =>
    intro i _ hlen
    simp only [findNalEnd]
    omega
  | succ f ih =>
    intro i hi hlen
    by_cases hc : i + 3 < d.length
    · rw [findNalEnd, if_pos hc, hno i hi]
      simp only [Bool.false_eq_true, if_false]
      rw [ih (i + 1) (by omega) (by omega)]
      omega
    · rw [findNalEnd, if_neg hc]
      omega

/-- Once fewer than four bytes remain, the outer loop exits immediately. -/
theorem splitLoop_stop (d : List Nat) (fuel i : Nat) (units : List NalUnit)
    (h : d.length ≤ i + 3) : splitLoop d fuel i units = units := by
  cases fuel with
  | zero => rfl
  | succ f => rw [splitLoop, if_neg (by omega)]

/-- Behaviour of the outer loop on reaching a 3-byte start code followed
only by a start-code-free tail `N`: at most one NAL is produced, holding
the first `N.length - 3` bytes of `N` (the loop condition `i + 3 <
data.len()` stops the inner scan three bytes early), and nothing is
produced when `N` has three or fewer bytes. -/
theorem splitLoop_startcode (N : List Nat) (hN : N ≠ [])
    (hno : containsSeq [0, 0, 1] N = false) :
    ∀ (d : List Nat) (i fuel : Nat) (units : List NalUnit),
      d.drop i = [0, 0, 1] ++ N →
      d.length = i + 3 + N.length →
      d.length ≤ fuel + i →
      splitLoop d fuel i units =
        if 3 < N.length then
          units ++ [⟨N.headD 0 &&& 31, N.take (N.length - 3)⟩]
        else units := by
  intro d i fuel units hdrop hlen hfuel
  have hNlen : 1 ≤ N.length := by
    cases N with
    | nil => exact absurd rfl hN
    | cons a t => simp
  have hdrop3 : d.drop (i + 3) = N := by
    have h := List.drop_drop 3 i d
    rw [hdrop] at h
    simpa using h.symm
  have hno' : ∀ j, i + 3 ≤ j → startsWithSeq [0, 0, 1] (d.drop j) = false := by
    intro j hj
    have hdj : d.drop j = N.drop (j - (i + 3)) := by
      have h := List.drop_drop (j - (i + 3)) (i + 3) d
      rw [hdrop3] at h
      rw [show i + 3 + (j - (i + 3)) = j by omega] at h
      exact h.symm
    rw [hdj]
    exact startsWithSeq_drop_eq_false hno _
  cases fuel with
  | zero => omega
  | succ f =>
    have hcond : i + 3 < d.length := by omega
    have hsw : startsWithSeq [0, 0, 1] (d.drop i) = true := by
      rw [hdrop]; simp [startsWithSeq]
    have he : findNalEnd d d.length (i + 3) = max (i + 3) (d.length - 3) :=
      findNalEnd_eq d (i + 3) hno' d.length (i + 3) (le_refl _) (by omega)
    have hmax : max (i + 3) (d.length - 3) = i + max 3 N.length := by omega
    rw [splitLoop, if_pos hcond, if_pos hsw]
    simp only [he, hmax]
    by_cases h3 : 3 < N.length
    · have hlt : i + 3 < i + max 3 N.length := by omega
      rw [if_pos hlt, if_pos h3]
      have hpay : (d.drop (i + 3)).take (i + max 3 N.length - (i + 3))
          = N.take (N.length - 3) := by
        rw [hdrop3]
        congr 1
        omega
      have hhead : d.getD (i + 3) 0 = N.headD 0 := by
        rw [getD_eq_headD_drop, hdrop3]
      rw [hpay, hhead]
      exact splitLoop_stop d f (i + max 3 N.length) _ (by omega)
    · have hlt : ¬ i + 3 < i + max 3 N.length := by omega
      rw [if_neg hlt, if_neg h3]
      exact splitLoop_stop d f (i + max 3 N.length) _ (by omega)

/-- C2 counterexample: for the non-empty, start-code-free payload
`N = [1]`, the claim demands exactly one NAL with payload `[1]`, but the
splitter's loop condition `i + 3 < data.len()` never sees the payload
byte, finds no NAL, and the call fails. -/
theorem C2_cex :
    split_annex_b ([0, 0, 1] ++ [1]) = .error "no NAL units found" ∧
    ∀ u : NalUnit, split_annex_b ([0, 0, 1] ++ [1]) ≠ .ok [u] := by
  refine ⟨rfl, fun u h => ?_⟩
  rw [show split_annex_b ([0, 0, 1] ++ [1]) = .error "no NAL units found" from rfl] at h
  exact Except.noConfusion h

/-- C2 (amended): for a non-empty `N` containing no start code,
`split_annex_b (start_code ++ N)` does *not* return one NAL with payload
`N`: the scan cannot reach the last three bytes of `N`, so when
`N.length ≤ 3` no NAL is found at all and the call errors, and when
`3 < N.length` exactly one NAL is returned whose payload is `N` with its
last three bytes dropped (for both the 3-byte and the 4-byte start
code). -/
theorem C2_split_annex_b (N : List Nat) (h1 : N ≠ [])
    (h2 : containsSeq [0, 0, 1] N = false) :
    (N.length ≤ 3 →
      split_annex_b ([0, 0, 1] ++ N) = .error "no NAL units found" ∧
      split_annex_b ([0, 0, 0, 1] ++ N) = .error "no NAL units found") ∧
    (3 < N.length →
      split_annex_b ([0, 0, 1] ++ N)
        = .ok [⟨N.headD 0 &&& 31, N.take (N.length - 3)⟩] ∧
      split_annex_b ([0, 0, 0, 1] ++ N)
        = .ok [⟨N.headD 0 &&& 31, N.take (N.length - 3)⟩]) := by
  have hNlen : 1 ≤ N.length := by
    cases N with
    | nil => exact absurd rfl h1
    | cons a t => simp
  have len3 : ([0, 0, 1] ++ N).length = 0 + 3 + N.length := by
    simp only [List.length_append, List.length_cons, List.length_nil]
  have h3loop : splitLoop ([0, 0, 1] ++ N) ([0, 0, 1] ++ N).length 0 [] =
      if 3 < N.length then
        [(⟨N.headD 0 &&& 31, N.take (N.length - 3)⟩ : NalUnit)]
      else [] := by
    simpa using
      splitLoop_startcode N h1 h2 ([0, 0, 1] ++ N) 0 ([0, 0, 1] ++ N).length []
        (by simp) len3 (by simp)
  have len4 : ([0, 0, 0, 1] ++ N).length = N.length + 4 := by simp
  have h4loop : splitLoop ([0, 0, 0, 1] ++ N) ([0, 0, 0, 1] ++ N).length 0 [] =
      if 3 < N.length then
        [(⟨N.headD 0 &&& 31, N.take (N.length - 3)⟩ : NalUnit)]
      else [] := by
    obtain ⟨f, hf⟩ : ∃ f, ([0, 0, 0, 1] ++ N).length = f + 1 :=
      ⟨N.length + 3, by simp⟩
    have hcond4 : 0 + 3 < ([0, 0, 0, 1] ++ N).length := by
      simp only [List.length_append, List.length_cons, List.length_nil]
      omega
    rw [hf, splitLoop, if_pos hcond4]
    have hsw3 : startsWithSeq [0, 0, 1] (([0, 0, 0, 1] ++ N).drop 0) = false := by
      simp [startsWithSeq]
    rw [hsw3]
    simp only [Bool.false_eq_true, if_false]
    have hsw4 : (decide (0 + 4 < ([0, 0, 0, 1] ++ N).length) &&
        startsWithSeq [0, 0, 0, 1] (([0, 0, 0, 1] ++ N).drop 0)) = true := by
      simp only [List.drop_zero, startsWithSeq, Bool.and_true, Bool.and_eq_true,
        decide_eq_true_eq, List.length_append, List.length_cons, List.length_nil,
        beq_self_eq_true, true_and]
      omega
    rw [if_pos hsw4]
    exact splitLoop_startcode N h1 h2 ([0, 0, 0, 1] ++ N) 1 f []
      (by simp) (by simp; omega) (by omega)
  constructor
  · intro hle
    have hif : ¬ 3 < N.length := by omega
    constructor
    · rw [split_annex_b, h3loop, if_neg hif]
      rfl
    · rw [split_annex_b, h4loop, if_neg hif]
      rfl
  · intro hgt
    constructor
    · rw [split_annex_b, h3loop, if_pos hgt]
      rfl
    · rw [split_annex_b, h4loop, if_pos hgt]
      rfl

/-- C2 witness: concrete instances of both branches of the amended claim. -/
theorem C2_witness :
    split_annex_b ([0, 0, 1] ++ [7, 5, 5, 5, 9]) = .ok [⟨7, [7, 5]⟩] ∧
    split_annex_b ([0, 0, 1] ++ [9, 9]) = .error "no NAL units found" :=
  ⟨((C2_split_annex_b [7, 5, 5, 5, 9] (by decide) (by decide)).2 (by decide)).1,
   ((C2_split_annex_b [9, 9] (by decide) (by decide)).1 (by decide)).1⟩

/-! ### C8 / C10: exp-Golomb bit reader -/

theorem or_one_of_even (x : Nat) (h : x % 2 = 0) : x ||| 1 = x + 1 := by
  obtain ⟨k, hk⟩ : ∃ k, x = 2 * k := ⟨x / 2, by omega⟩
  subst hk
  have h1 : 2 * k ||| 1 = Nat.bit false k ||| Nat.bit true 0 := by
    simp [Nat.bit_val]
  rw [h1, Nat.lor_bit]
  simp [Nat.bit_val]

theorem bitAt_le_one (data : List Nat) (i : Nat) : bitAt data i ≤ 1 :=
  Nat.and_le_right

theorem bitsVal_lt (data : List Nat) (pos : Nat) :
    ∀ n, bitsVal data pos n < 2 ^ n := by
  intro n
  induction n with
  | zero => simp [bitsVal]
  | succ n ih =>
    have hb := bitAt_le_one data (pos + n)
    simp only [bitsVal]
    have : bitsVal data pos n ≤ 2 ^ n - 1 := by omega
    calc bitsVal data pos n * 2 + bitAt data (pos + n)
        ≤ (2 ^ n - 1) * 2 + 1 := by omega
      _ < 2 ^ (n + 1) := by
          have : 1 ≤ 2 ^ n := Nat.one_le_two_pow
          rw [pow_succ]
          omega

/-- Front-peeling form of `bitsVal`. -/
theorem bitsVal_cons (data : List Nat) (pos : Nat) :
    ∀ n, bitsVal data pos (n + 1) = bitAt data pos * 2 ^ n + bitsVal data (pos + 1) n := by
  intro n
  induction n with
  | zero => simp [bitsVal]
  | succ n ih =>
    have step : bitsVal data pos (n + 1 + 1)
        = bitsVal data pos (n + 1) * 2 + bitAt data (pos + (n + 1)) := rfl
    rw [step, ih]
    have step2 : bitsVal data (pos + 1) (n + 1)
        = bitsVal data (pos + 1) n * 2 + bitAt data (pos + 1 + n) := rfl
    rw [step2]
    ring_nf

/-- Successful run of the `read_bits` loop: all `n` positions are inside
the buffer, and the accumulator picks up the big-endian bit value. -/
theorem readBitsLoop_ok (data : List Nat) :
    ∀ n pos v, pos + n ≤ 8 * data.length → v < 4294967296 →
      readBitsLoop data n pos v
        = .ok ((v * 2 ^ n + bitsVal data pos n) % 4294967296, pos + n) := by
  intro n
  induction n with
  | zero =>
    intro pos v _ hv
    simp [readBitsLoop, bitsVal, Nat.mod_eq_of_lt hv]
  | succ n ih =>
    intro pos v hle hv
    have hbyte : pos / 8 < data.length := by omega
    rw [readBitsLoop, if_pos hbyte]
    dsimp only
    have hbit : ((data.getD (pos / 8) 0) >>> (7 - pos % 8)) &&& 1 = bitAt data pos := rfl
    rw [hbit]
    have hb := bitAt_le_one data pos
    have heven : (v <<< 1) % 4294967296 % 2 = 0 := by
      rw [Nat.shiftLeft_eq]
      omega
    have hval : ((v <<< 1) % 4294967296) ||| bitAt data pos
        = (2 * v + bitAt data pos) % 4294967296 := by
      rcases Nat.le_one_iff_eq_zero_or_eq_one.mp hb with h0 | h1
      · rw [h0, Nat.or_zero, Nat.shiftLeft_eq]
        have : v * 2 ^ 1 = 2 * v := by ring
        rw [this]
        omega
      · rw [h1, or_one_of_even _ heven, Nat.shiftLeft_eq]
        have h2 : v * 2 ^ 1 = 2 * v := by ring
        rw [h2]
        omega
    rw [hval, ih (pos + 1) _ (by omega) (Nat.mod_lt _ (by norm_num))]
    have harith : ((2 * v + bitAt data pos) % 4294967296 * 2 ^ n
          + bitsVal data (pos + 1) n) % 4294967296
        = (v * 2 ^ (n + 1) + bitsVal data pos (n + 1)) % 4294967296 := by
      rw [bitsVal_cons]
      conv_lhs => rw [Nat.add_mod, Nat.mod_mul_mod, ← Nat.add_mod]
      congr 1
      ring
    rw [harith, show pos + 1 + n = pos + (n + 1) by omega]

/-- Failing run of the `read_bits` loop: at least one of the requested
positions is outside the buffer. -/
theorem readBitsLoop_err (data : List Nat) :
    ∀ n pos v, 8 * data.length < pos + n + 1 →
      readBitsLoop data (n + 1) pos v = .error "bitstream overread" := by
  intro n
  induction n with
  | zero =>
    intro pos v h
    rw [readBitsLoop, if_neg (by omega)]
  | succ n ih =>
    intro pos v h
    by_cases hbyte : pos / 8 < data.length
    · rw [readBitsLoop, if_pos hbyte]
      exact ih (pos + 1) _ (by omega)
    · rw [readBitsLoop, if_neg hbyte]

theorem read_bits_ok (data : List Nat) (pos n : Nat)
    (h : pos + n ≤ 8 * data.length) (hn : n ≤ 32) :
    BitReader.read_bits ⟨data, pos⟩ n
      = .ok (bitsVal data pos n, ⟨data, pos + n⟩) := by
  cases n with
  | zero => simp [BitReader.read_bits, bitsVal]
  | succ n =>
    rw [BitReader.read_bits, if_neg (by omega)]
    rw [readBitsLoop_ok data (n + 1) pos 0 h (by norm_num)]
    have hlt : bitsVal data pos (n + 1) < 4294967296 := by
      have h1 := bitsVal_lt data pos (n + 1)
      have h2 : (2 : Nat) ^ (n + 1) ≤ 2 ^ 32 := Nat.pow_le_pow_right (by norm_num) hn
      omega
    simp [Nat.mod_eq_of_lt hlt]

theorem read_bits_err (data : List Nat) (pos n : Nat)
    (h : 8 * data.length < pos + n) (hn : 1 ≤ n) :
    BitReader.read_bits ⟨data, pos⟩ n = .error "bitstream overread" := by
  cases n with
  | zero => omega
  | succ n =>
    rw [BitReader.read_bits, if_neg (by omega)]
    rw [readBitsLoop_err data n pos 0 (by omega)]

/-- Reading a single bit inside the buffer yields `bitAt`. -/
theorem read_bits_one (data : List Nat) (pos : Nat) (h : pos < 8 * data.length) :
    BitReader.read_bits ⟨data, pos⟩ 1
      = .ok (bitAt data pos, ⟨data, pos + 1⟩) := by
  rw [read_bits_ok data pos 1 (by omega) (by norm_num)]
  simp [bitsVal]

/-- The zero-counting loop of `read_ue`: if `z` zero bits precede a one
bit inside the buffer, it returns `z` (plus the running count) and the
position just past the one bit. -/
theorem readUeZeros_ok (data : List Nat) :
    ∀ z pos fuel z₀, (∀ k, k < z → bitAt data (pos + k) = 0) →
      bitAt data (pos + z) = 1 → pos + z < 8 * data.length → z + 1 ≤ fuel →
      readUeZeros ⟨data, pos⟩ fuel z₀ = .ok (z₀ + z, ⟨data, pos + z + 1⟩) := by
  intro z
  induction z with
  | zero =>
    intro pos fuel z₀ _ h1 hin hfuel
    cases fuel with
    | zero => omega
    | succ f =>
      rw [readUeZeros, read_bits_one data pos (by omega)]
      simp only [Nat.add_zero] at h1
      rw [h1]
      simp
  | succ z ih =>
    intro pos fuel z₀ hz h1 hin hfuel
    cases fuel with
    | zero => omega
    | succ f =>
      have h0 : bitAt data pos = 0 := by
        simpa using hz 0 (by omega)
      have hstep : readUeZeros ⟨data, pos⟩ (f + 1) z₀
          = readUeZeros ⟨data, pos + 1⟩ f (z₀ + 1) := by
        rw [readUeZeros, read_bits_one data pos (by omega), h0]
        simp
      rw [hstep]
      have hih := ih (pos + 1) f (z₀ + 1)
        (fun k hk => by
          rw [show pos + 1 + k = pos + (k + 1) by omega]
          exact hz (k + 1) (by omega))
        (by rw [show pos + 1 + z = pos + (z + 1) by omega]; exact h1)
        (by omega) (by omega)
      rw [show pos + (z + 1) + 1 = pos + 1 + z + 1 by omega,
        show z₀ + (z + 1) = z₀ + 1 + z by omega]
      exact hih

/-- `readUeZeros` can only fail with the overread message. -/
theorem readUeZeros_err (data : List Nat) :
    ∀ fuel pos z₀ e, readUeZeros ⟨data, pos⟩ fuel z₀ = .error e →
      e = "bitstream overread" := by
  intro fuel
  induction fuel with
  | zero =>
    intro pos z₀ e h
    exact Except.noConfusion h
  | succ f ih =>
    intro pos z₀ e h
    rw [readUeZeros] at h
    by_cases hbyte : pos / 8 < data.length
    · rw [read_bits_one data pos (by omega)] at h
      simp only at h
      by_cases hbit : bitAt data pos = 0
      · rw [hbit] at h
        simp only [if_pos rfl] at h
        exact ih (pos + 1) (z₀ + 1) e h
      · have h1 : bitAt data pos = 1 := by
          have := bitAt_le_one data pos
          omega
        rw [h1] at h
        simp at h
    · rw [read_bits_err data pos 1 (by omega) (by omega)] at h
      have h' : (Except.error "bitstream overread" : Except String (Nat × BitReader))
          = .error e := h
      exact ((Except.error.injEq _ _).mp h').symm

/-- `readBitsLoop` can only fail with the overread message. -/
theorem readBitsLoop_err_msg (data : List Nat) :
    ∀ n pos v e, readBitsLoop data n pos v = .error e → e = "bitstream overread" := by
  intro n
  induction n with
  | zero =>
    intro pos v e h
    exact Except.noConfusion h
  | succ n ih =>
    intro pos v e h
    rw [readBitsLoop] at h
    by_cases hbyte : pos / 8 < data.length
    · rw [if_pos hbyte] at h
      exact ih _ _ _ h
    · rw [if_neg hbyte] at h
      exact (Except.error.injEq _ _).mp h.symm

/-- `read_bits` can only fail with the overread message. -/
theorem read_bits_err_msg (r : BitReader) (n : Nat) (e : String)
    (h : r.read_bits n = .error e) : e = "bitstream overread" := by
  rw [BitReader.read_bits] at h
  by_cases h0 : n = 0
  · rw [if_pos h0] at h
    exact Except.noConfusion h
  · rw [if_neg h0] at h
    rcases hloop : readBitsLoop r.data n r.bit_pos 0 with e' | p
    · rw [hloop] at h
      have he' : e' = e := (Except.error.injEq _ _).mp h
      rw [← he']
      exact readBitsLoop_err_msg r.data n r.bit_pos 0 e' hloop
    · rw [hloop] at h
      obtain ⟨value, pos⟩ := p
      exact Except.noConfusion h

/-- Characterisation of `read_ue` when `z < 32` zero bits precede the
terminating one bit: value `(1 << z) - 1 + suffix`, or the overread
error when the suffix runs past the buffer. -/
theorem read_ue_cases (data : List Nat) (pos z : Nat)
    (hz : ∀ k, k < z → bitAt data (pos + k) = 0)
    (h1 : bitAt data (pos + z) = 1)
    (hin : pos + z < 8 * data.length)
    (hz32 : z < 32) :
    (z = 0 → BitReader.read_ue ⟨data, pos⟩ = .ok (0, ⟨data, pos + 1⟩)) ∧
    (0 < z → pos + 2 * z + 1 ≤ 8 * data.length →
      BitReader.read_ue ⟨data, pos⟩
        = .ok (2 ^ z - 1 + bitsVal data (pos + z + 1) z, ⟨data, pos + 2 * z + 1⟩)) ∧
    (0 < z → 8 * data.length < pos + 2 * z + 1 →
      BitReader.read_ue ⟨data, pos⟩ = .error "bitstream overread") := by
  have hzr : readUeZeros ⟨data, pos⟩ (8 * data.length + 1) 0
      = .ok (z, ⟨data, pos + z + 1⟩) := by
    have h := readUeZeros_ok data z pos (8 * data.length + 1) 0 hz h1 hin (by omega)
    simpa using h
  refine ⟨?_, ?_, ?_⟩
  · intro h0
    subst h0
    rw [BitReader.read_ue, hzr]
    simp
  · intro hpos hrange
    rw [BitReader.read_ue, hzr]
    have hrb : BitReader.read_bits ⟨data, pos + z + 1⟩ z
        = .ok (bitsVal data (pos + z + 1) z, ⟨data, pos + z + 1 + z⟩) :=
      read_bits_ok data (pos + z + 1) z (by omega) (by omega)
    simp only [hrb]
    rw [if_pos hpos, if_pos hz32]
    have hsh : (1 <<< z) = 2 ^ z := by
      rw [Nat.shiftLeft_eq, one_mul]
    rw [hsh, show pos + z + 1 + z = pos + 2 * z + 1 by omega]
  · intro hpos hrange
    rw [BitReader.read_ue, hzr]
    have hrb : BitReader.read_bits ⟨data, pos + z + 1⟩ z
        = .error "bitstream overread" :=
      read_bits_err data (pos + z + 1) z (by omega) (by omega)
    simp only [hrb]
    rw [if_pos hpos]

/-! ### C10: totality of `read_ue` -/

/-- C10 counterexample: a buffer with 32 zero bits before the first one
bit (and enough suffix bits) drives `zeros` to 32, so the Rust expression
`1u32 << zeros` overflows — a panic in debug builds — instead of
returning a value or the overread error as the claim states. -/
theorem C10_cex :
    BitReader.read_ue ⟨[0, 0, 0, 0, 128, 0, 0, 0, 0], 0⟩
      = .error "attempt to shift left with overflow" ∧
    "attempt to shift left with overflow" ≠ "bitstream overread" :=
  ⟨rfl, by decide⟩

/-- C10 (amended): `read_ue` always returns a value, the overread error,
or hits the overflowing shift `1u32 << zeros` (a panic in debug builds);
the latter happens only when 32 or more zero bits precede the first one
bit, so whenever the zero run is shorter than 32 the claim's dichotomy
(value or overread error, no panic) does hold. -/
theorem C10_read_ue_safety :
    (∀ r : BitReader,
      (∃ v r', BitReader.read_ue r = .ok (v, r')) ∨
      BitReader.read_ue r = .error "bitstream overread" ∨
      BitReader.read_ue r = .error "attempt to shift left with overflow") ∧
    (∀ (data : List Nat) (pos z : Nat),
      (∀ k, k < z → bitAt data (pos + k) = 0) →
      bitAt data (pos + z) = 1 →
      pos + z < 8 * data.length →
      z < 32 →
      BitReader.read_ue ⟨data, pos⟩ ≠ .error "attempt to shift left with overflow") := by
  constructor
  · intro r
    obtain ⟨data, pos⟩ := r
    rw [BitReader.read_ue]
    rcases hzr : readUeZeros ⟨data, pos⟩ (8 * data.length + 1) 0 with e | p
    · have he := readUeZeros_err data _ pos 0 e hzr
      subst he
      right; left; rfl
    · obtain ⟨zeros, r'⟩ := p
      by_cases hz : zeros > 0
      · simp only [if_pos hz]
        rcases hrb : r'.read_bits zeros with e' | q
        · have he' := read_bits_err_msg r' zeros e' hrb
          subst he'
          right; left; rfl
        · obtain ⟨suffix, r''⟩ := q
          dsimp only
          by_cases h32 : zeros < 32
          · rw [if_pos h32]
            exact Or.inl ⟨_, _, rfl⟩
          · rw [if_neg h32]
            right; right; rfl
      · simp only [if_neg hz]
        exact Or.inl ⟨_, _, rfl⟩
  · intro data pos z hz h1 hin hz32
    have hc := read_ue_cases data pos z hz h1 hin hz32
    rcases Nat.eq_zero_or_pos z with h0 | hpos
    · rw [hc.1 h0]
      simp
    · by_cases hrange : pos + 2 * z + 1 ≤ 8 * data.length
      · rw [hc.2.1 hpos hrange]
        simp
      · rw [hc.2.2 hpos (by omega)]
        simp

/-- C10 witness: a concrete instance of the second conjunct. -/
theorem C10_witness :
    BitReader.read_ue ⟨[96], 0⟩ ≠ .error "attempt to shift left with overflow" :=
  C10_read_ue_safety.2 [96] 0 1 (by decide) (by decide) (by decide) (by decide)

/-! ### C8: exp-Golomb values -/

/-- C8 counterexample: with 31 leading zero bits and suffix 1, `read_ue`
returns `2^31`; `read_se` casts this to `i32`, wrapping to `-2^31`, and
returns `+2^30`, whereas the claim's formula `-(u/2)` on the unsigned
value `u = 2^31` demands `-2^30`.  And with 31 leading zero bits and
suffix 0, `read_ue` returns `2^31 - 1 = i32::MAX`, on which the `ue + 1`
of `read_se`'s odd branch overflows (a debug-build panic), so the formula
already fails below the wrap point. -/
theorem C8_cex :
    BitReader.read_ue ⟨[0, 0, 0, 1, 0, 0, 0, 2], 0⟩
      = .ok (2147483648, ⟨[0, 0, 0, 1, 0, 0, 0, 2], 63⟩) ∧
    BitReader.read_se ⟨[0, 0, 0, 1, 0, 0, 0, 2], 0⟩
      = .ok (1073741824, ⟨[0, 0, 0, 1, 0, 0, 0, 2], 63⟩) ∧
    (1073741824 : Int) ≠ -((2147483648 / 2 : Nat) : Int) ∧
    BitReader.read_ue ⟨[0, 0, 0, 1, 0, 0, 0, 0], 0⟩
      = .ok (2147483647, ⟨[0, 0, 0, 1, 0, 0, 0, 0], 63⟩) ∧
    BitReader.read_se ⟨[0, 0, 0, 1, 0, 0, 0, 0], 0⟩
      = .error "attempt to add with overflow" :=
  ⟨rfl, rfl, by decide, rfl, rfl⟩

/-- C8 (amended): when the zero run `z` is shorter than 32, `read_ue`
returns `(1 << z) - 1 + s` with `s` the `z` suffix bits (`0` when
`z = 0`) and errors on overread; `read_se` applies the claim's formula to
the `i32`-wrapped value, which agrees with `-(u/2)` / `(u+1)/2` on the
unsigned `u` exactly when `u < 2^31 - 1`; at `u = 2^31 - 1` the `i32`
increment `ue + 1` overflows (a debug-build panic). -/
theorem C8_exp_golomb (data : List Nat) (pos z : Nat)
    (hz : ∀ k, k < z → bitAt data (pos + k) = 0)
    (h1 : bitAt data (pos + z) = 1)
    (hin : pos + z < 8 * data.length)
    (hz32 : z < 32) :
    (z = 0 → BitReader.read_ue ⟨data, pos⟩ = .ok (0, ⟨data, pos + 1⟩)) ∧
    (0 < z → pos + 2 * z + 1 ≤ 8 * data.length →
      BitReader.read_ue ⟨data, pos⟩
        = .ok (2 ^ z - 1 + bitsVal data (pos + z + 1) z, ⟨data, pos + 2 * z + 1⟩)) ∧
    (0 < z → 8 * data.length < pos + 2 * z + 1 →
      BitReader.read_ue ⟨data, pos⟩ = .error "bitstream overread") ∧
    (∀ (ue : Nat) (r' : BitReader), BitReader.read_ue ⟨data, pos⟩ = .ok (ue, r') →
      ue < 2147483647 →
      BitReader.read_se ⟨data, pos⟩
        = .ok (if ue % 2 = 0 then -((ue / 2 : Nat) : Int)
               else (((ue + 1) / 2 : Nat) : Int), r')) ∧
    (∀ r' : BitReader, BitReader.read_ue ⟨data, pos⟩ = .ok (2147483647, r') →
      BitReader.read_se ⟨data, pos⟩ = .error "attempt to add with overflow") := by
  have hc := read_ue_cases data pos z hz h1 hin hz32
  refine ⟨hc.1, hc.2.1, hc.2.2, ?_, ?_⟩
  · intro ue r' h hlt
    have hlt' : ue < 2147483648 := by omega
    rw [BitReader.read_se, h]
    dsimp only
    rw [show u32AsI32 ue = (ue : Int) from by rw [u32AsI32, if_pos hlt']]
    have htm : Int.tmod (ue : Int) 2 = ((ue % 2 : Nat) : Int) := rfl
    have htd : Int.tdiv (ue : Int) 2 = ((ue / 2 : Nat) : Int) := rfl
    have htd2 : Int.tdiv ((ue : Int) + 1) 2 = (((ue + 1) / 2 : Nat) : Int) := rfl
    by_cases h2 : ue % 2 = 0
    · rw [if_pos (show Int.tmod (ue : Int) 2 = 0 from by
        rw [htm, h2]; rfl)]
      rw [if_pos h2, htd]
    · rw [if_neg (show ¬ Int.tmod (ue : Int) 2 = 0 from by
        rw [htm]; exact fun hh => h2 (Nat.cast_eq_zero.mp hh))]
      rw [if_neg (show ¬ (ue : Int) = 2147483647 from by
        intro hh; omega)]
      rw [if_neg h2, htd2]
  · intro r' h
    rw [BitReader.read_se, h]
    rfl

/-- C8 witness: the bits `0 1 1` encode `ue = 2`, `se = -1`. -/
theorem C8_witness :
    BitReader.read_ue ⟨[96], 0⟩ = .ok (2, ⟨[96], 3⟩) ∧
    BitReader.read_se ⟨[96], 0⟩ = .ok (-1, ⟨[96], 3⟩) := by
  have T := C8_exp_golomb [96] 0 1 (by decide) (by decide) (by decide) (by decide)
  have hue : BitReader.read_ue ⟨[96], 0⟩ = .ok (2, ⟨[96], 3⟩) := T.2.1 (by decide) (by decide)
  exact ⟨hue, T.2.2.2.1 2 ⟨[96], 3⟩ hue (by decide)⟩

/-! ### C3: output-path templating -/

/-- `strReplace` leaves a string untouched when the pattern matches at no
position. -/
theorem strReplaceAux_nomatch (pat rep : List Char) :
    ∀ fuel s, (∀ k, pat.isPrefixOf (s.drop k) = false) →
      strReplaceAux fuel s pat rep = s := by
  intro fuel
  induction fuel with
  | zero =>
    intro s _
    cases s <;> rfl
  | succ f ih =>
    intro s h
    match s with
    | [] => rfl
    | c :: rest =>
      have h0 : pat.isPrefixOf (c :: rest) = false := by simpa using h 0
      rw [strReplaceAux, if_neg (by simp [h0])]
      rw [ih rest fun k => by simpa using h (k + 1)]

/-- A brace-starting pattern matches nowhere in a brace-free string. -/
theorem nomatch_of_brace_free (p' : List Char) {s : List Char}
    (h : ∀ c ∈ s, c ≠ '{') (k : Nat) :
    ('{' :: p').isPrefixOf (s.drop k) = false := by
  rcases hd : s.drop k with _ | ⟨c, t⟩
  · rfl
  · have hc : c ∈ s := by
      have : c ∈ s.drop k := by rw [hd]; exact List.mem_cons_self c t
      exact List.mem_of_mem_drop this
    have : ('{' == c) = false := by
      have := h c hc
      simpa [beq_eq_false_iff_ne] using (Ne.symm this)
    simp [List.isPrefixOf, this]

/-- A pattern is a prefix of itself plus anything. -/
theorem isPrefixOf_append_self : ∀ (p t : List Char), p.isPrefixOf (p ++ t) = true := by
  intro p
  induction p with
  | nil => intro t; simp [List.isPrefixOf]
  | cons x xs ih => intro t; simp [List.isPrefixOf, ih]

/-- Stepping `strReplaceAux` over a brace-free prefix `a` up to the
pattern occurrence: the prefix is copied, the occurrence replaced, and
the scan continues after it with correspondingly less fuel. -/
theorem strReplaceAux_match (p' rep : List Char) :
    ∀ a r fuel, (∀ c ∈ a, c ≠ '{') → a.length + 1 ≤ fuel →
      strReplaceAux fuel (a ++ ('{' :: p') ++ r) ('{' :: p') rep
        = a ++ rep ++ strReplaceAux (fuel - a.length - 1) r ('{' :: p') rep := by
  intro a
  induction a with
  | nil =>
    intro r fuel _ hfuel
    cases fuel with
    | zero => omega
    | succ f =>
      simp only [List.nil_append, List.cons_append]
      rw [strReplaceAux,
        if_pos ⟨by exact isPrefixOf_append_self ('{' :: p') r, by simp⟩]
      have hdrop : (('{' :: p') ++ r).drop ('{' :: p').length = r := List.drop_left _ _
      simp only [List.cons_append] at hdrop
      rw [hdrop]
      simp
  | cons c a' ih =>
    intro r fuel h hfuel
    cases fuel with
    | zero => omega
    | succ f =>
      have hc : c ≠ '{' := h c (List.mem_cons_self c a')
      have hbeq : ('{' == c) = false := by
        simpa [beq_eq_false_iff_ne] using (Ne.symm hc)
      simp only [List.cons_append]
      rw [strReplaceAux, if_neg (by simp [List.isPrefixOf, hbeq])]
      rw [ih r f (fun x hx => h x (List.mem_cons_of_mem c hx))
        (by simp only [List.length_cons] at hfuel; omega)]
      have hfeq : f + 1 - (c :: a').length - 1 = f - a'.length - 1 := by
        simp only [List.length_cons]
        omega
      rw [hfeq]

/-- `(p ++ ['}'])` is a prefix of `key ++ '}' :: B` exactly when
`p = key`, for `}`-free `p` and `key`. -/
theorem close_brace_lead :
    ∀ (p key : List Char) (B : List Char), (∀ c ∈ p, c ≠ '}') → (∀ c ∈ key, c ≠ '}') →
      ((p ++ ['}']).isPrefixOf (key ++ '}' :: B) = true ↔ p = key) := by
  intro p
  induction p with
  | nil =>
    intro key B _ hkey
    cases key with
    | nil => simp [List.isPrefixOf]
    | cons c key' =>
      have : ('}' == c) = false := by
        simpa [beq_eq_false_iff_ne] using (Ne.symm (hkey c (List.mem_cons_self c key')))
      simp [List.isPrefixOf, this]
  | cons x p' ih =>
    intro key B hp hkey
    cases key with
    | nil =>
      have : (x == '}') = false := by
        simpa [beq_eq_false_iff_ne] using hp x (List.mem_cons_self x p')
      simp [List.isPrefixOf, this]
    | cons c key' =>
      by_cases hx : x = c
      · subst hx
        have := ih key' B (fun a ha => hp a (List.mem_cons_of_mem _ ha))
          (fun a ha => hkey a (List.mem_cons_of_mem _ ha))
        simp [List.isPrefixOf, this]
      · have : (x == c) = false := by simpa [beq_eq_false_iff_ne] using hx
        simp [List.isPrefixOf, this, hx]

/-- No brace-starting, brace-closed pattern other than the key's own
matches anywhere in `X ++ '{' :: key ++ '}' :: B` when `X`, `key`, `B`
are brace-free. -/
theorem nomatch_unknown_placeholder (p key : List Char) {X B : List Char}
    (hX : ∀ c ∈ X, c ≠ '{') (hB : ∀ c ∈ B, c ≠ '{')
    (hk : ∀ c ∈ key, c ≠ '{' ∧ c ≠ '}') (hp : ∀ c ∈ p, c ≠ '}')
    (hne : p ≠ key) (k : Nat) :
    (('{' :: (p ++ ['}'])).isPrefixOf ((X ++ '{' :: (key ++ '}' :: B)).drop k)
      = false) := by
  induction X generalizing k with
  | nil =>
    cases k with
    | zero =>
      simp only [List.nil_append, List.drop_zero]
      have hnp : ((p ++ ['}']).isPrefixOf (key ++ '}' :: B)) = false := by
        rcases hq : ((p ++ ['}']).isPrefixOf (key ++ '}' :: B)) with _ | _
        · rfl
        · exact absurd ((close_brace_lead p key B hp fun c hc => (hk c hc).2).mp hq)
            hne
      simp [List.isPrefixOf, hnp]
    | succ k' =>
      simp only [List.nil_append, List.drop_succ_cons]
      have htail : ∀ c ∈ key ++ '}' :: B, c ≠ '{' := by
        intro c hc
        rcases List.mem_append.mp hc with h | h
        · exact (hk c h).1
        · rcases List.mem_cons.mp h with h | h
          · subst h; decide
          · exact hB c h
      exact nomatch_of_brace_free _ htail k'
  | cons x X' ih =>
    cases k with
    | zero =>
      have : ('{' == x) = false := by
        simpa [beq_eq_false_iff_ne] using
          (Ne.symm (hX x (List.mem_cons_self x X')))
      simp [List.isPrefixOf, this]
    | succ k' =>
      simp only [List.cons_append, List.drop_succ_cons]
      exact ih (fun c hc => hX c (List.mem_cons_of_mem _ hc)) k'

/-- C3 counterexample: with stem `xy` and template `{stem}{stem}`, both
occurrences are substituted (`str::replace` is replace-all), whereas
exactly-once substitution would leave one literal `{stem}`. -/
theorem C3_cex :
    resolve_file_name ⟨"out".data, "{stem}{stem}".data⟩
      ⟨"in".data, "xy".data, [], none, none, none, MediaStreams.default, []⟩
      "png".data = "xyxy".data ∧
    "xyxy".data ≠ "xy{stem}".data ∧
    "xyxy".data ≠ "{stem}xy".data := by
  refine ⟨rfl, by decide, by decide⟩

/-- The metadata fold leaves a template alone when no string-valued key
can match. -/
theorem metaFold_nomatch (md : Metadata) (t : List Char)
    (h : ∀ kv ∈ md, ∀ s, kv.2.asStr = some s →
      ∀ k, (('{' :: (kv.1 ++ ['}'])).isPrefixOf (t.drop k) = false)) :
    md.foldl
      (fun acc kv =>
        match kv.2.asStr with
        | some s => strReplace acc ('{' :: kv.1 ++ ['}']) s
        | none => acc) t = t := by
  induction md with
  | nil => rfl
  | cons kv md' ih =>
    simp only [List.foldl_cons]
    rcases hs : kv.2.asStr with _ | s
    · exact ih fun kv' hkv' => h kv' (List.mem_cons_of_mem _ hkv')
    · have hrw : strReplace t ('{' :: kv.1 ++ ['}']) s = t := by
        rw [strReplace]
        exact strReplaceAux_nomatch _ _ _ _
          (by simpa using h kv (List.mem_cons_self _ _) s hs)
      dsimp only
      rw [hrw]
      exact ih fun kv' hkv' => h kv' (List.mem_cons_of_mem _ hkv')

/-- Brace-free strings stay brace-free under append (helper). -/
theorem brace_free_append {u v : List Char}
    (hu : ∀ c ∈ u, c ≠ '{') (hv : ∀ c ∈ v, c ≠ '{') :
    ∀ c ∈ u ++ v, c ≠ '{' := by
  intro c hc
  rcases List.mem_append.mp hc with h | h
  · exact hu c h
  · exact hv c h

/-- C3 (amended): `resolve_output_path` substitutes with Rust
`str::replace` semantics — every occurrence of `{stem}` in one pass,
then every occurrence of `{ext}`, then one pass per string-valued
metadata key, each pass rescanning the current string — and any
placeholder matching none of these keys remains literally in the file
name.  The first conjunct exhibits replace-all on a template with two
`{stem}` occurrences; the second shows an unknown placeholder surviving
all passes. -/
theorem C3_resolve_output_template :
    (∀ (dir A B C ext : List Char) (a : Artifact),
      (∀ c ∈ A, c ≠ '{') → (∀ c ∈ B, c ≠ '{') → (∀ c ∈ C, c ≠ '{') →
      (∀ c ∈ a.stem, c ≠ '{') → (∀ c ∈ ext, c ≠ '{') → a.metadata = [] →
      resolve_file_name ⟨dir, A ++ "{stem}".data ++ B ++ "{stem}".data ++ C⟩ a ext
        = A ++ a.stem ++ B ++ a.stem ++ C) ∧
    (∀ (dir X Y key ext : List Char) (a : Artifact),
      (∀ c ∈ X, c ≠ '{') → (∀ c ∈ Y, c ≠ '{') →
      (∀ c ∈ key, c ≠ '{' ∧ c ≠ '}') →
      key ≠ "stem".data → key ≠ "ext".data →
      (∀ kv ∈ a.metadata, (∀ c ∈ kv.1, c ≠ '{' ∧ c ≠ '}') ∧ kv.1 ≠ key) →
      resolve_file_name ⟨dir, X ++ '{' :: (key ++ '}' :: Y)⟩ a ext
        = X ++ '{' :: (key ++ '}' :: Y)) := by
  constructor
  · intro dir A B C ext a hA hB hC hstem hext hmeta
    have hpat : "{stem}".data = '{' :: "stem\x7d".data := rfl
    have hstep1 :
        strReplace (A ++ '{' :: "stem\x7d".data ++ (B ++ '{' :: "stem\x7d".data ++ C))
            ('{' :: "stem\x7d".data) a.stem
          = A ++ a.stem ++ (B ++ a.stem ++ C) := by
      rw [strReplace]
      rw [show A ++ '{' :: "stem\x7d".data ++ (B ++ '{' :: "stem\x7d".data ++ C)
          = A ++ ('{' :: "stem\x7d".data) ++ (B ++ ('{' :: "stem\x7d".data) ++ C) by simp]
      rw [strReplaceAux_match "stem\x7d".data a.stem A _ _ hA
        (by simp only [List.length_append, List.length_cons, List.length_nil]; omega)]
      rw [strReplaceAux_match "stem\x7d".data a.stem B C _ hB
        (by simp only [List.length_append, List.length_cons, List.length_nil]; omega)]
      rw [strReplaceAux_nomatch _ _ _ C (nomatch_of_brace_free _ hC)]
    have hfree : ∀ c ∈ A ++ a.stem ++ (B ++ a.stem ++ C), c ≠ '{' :=
      brace_free_append (brace_free_append hA hstem)
        (brace_free_append (brace_free_append hB hstem) hC)
    have hstep2 :
        strReplace (A ++ a.stem ++ (B ++ a.stem ++ C)) "{ext}".data ext
          = A ++ a.stem ++ (B ++ a.stem ++ C) := by
      rw [show "{ext}".data = '{' :: "ext\x7d".data from rfl, strReplace]
      exact strReplaceAux_nomatch _ _ _ _ (nomatch_of_brace_free _ hfree)
    rw [resolve_file_name]
    dsimp only
    rw [hmeta]
    simp only [List.foldl_nil]
    rw [show A ++ "{stem}".data ++ B ++ "{stem}".data ++ C
        = A ++ '{' :: "stem\x7d".data ++ (B ++ '{' :: "stem\x7d".data ++ C) by
      rw [hpat]; simp]
    rw [hstep1, hstep2]
    simp
  · intro dir X Y key ext a hX hY hkey hne1 hne2 hmeta
    have hstemfree : ∀ c ∈ "stem".data, c ≠ '}' := by decide
    have hextfree : ∀ c ∈ "ext".data, c ≠ '}' := by decide
    have hstep1 :
        strReplace (X ++ '{' :: (key ++ '}' :: Y)) "{stem}".data a.stem
          = X ++ '{' :: (key ++ '}' :: Y) := by
      rw [show "{stem}".data = '{' :: ("stem".data ++ ['}']) from rfl, strReplace]
      exact strReplaceAux_nomatch _ _ _ _
        (nomatch_unknown_placeholder "stem".data key hX hY hkey hstemfree
          (fun h => hne1 h.symm))
    have hstep2 :
        strReplace (X ++ '{' :: (key ++ '}' :: Y)) "{ext}".data ext
          = X ++ '{' :: (key ++ '}' :: Y) := by
      rw [show "{ext}".data = '{' :: ("ext".data ++ ['}']) from rfl, strReplace]
      exact strReplaceAux_nomatch _ _ _ _
        (nomatch_unknown_placeholder "ext".data key hX hY hkey hextfree
          (fun h => hne2 h.symm))
    rw [resolve_file_name]
    dsimp only
    rw [hstep1, hstep2]
    exact metaFold_nomatch a.metadata _
      (fun kv hkv s _ k =>
        nomatch_unknown_placeholder kv.1 key hX hY hkey
          (fun c hc => ((hmeta kv hkv).1 c hc).2)
          (hmeta kv hkv).2 k)

/-- C3 witness: concrete instances of both conjuncts. -/
theorem C3_witness :
    resolve_file_name ⟨"out".data, ("a-".data ++ "{stem}".data ++ "_".data
        ++ "{stem}".data ++ ".x".data)⟩
      ⟨"in".data, "pic".data, [], none, none, none, MediaStreams.default, []⟩
      "png".data = "a-pic_pic.x".data ∧
    resolve_file_name ⟨"out".data, ("go".data ++ '{' :: ("user".data ++ '}' :: "!".data))⟩
      ⟨"in".data, "pic".data, [], none, none, none, MediaStreams.default,
        [("stem".data, .str "pic".data)]⟩
      "png".data = "go".data ++ '{' :: ("user".data ++ '}' :: "!".data) := by
  constructor
  · have h := C3_resolve_output_template.1 "out".data "a-".data "_".data ".x".data
      "png".data
      ⟨"in".data, "pic".data, [], none, none, none, MediaStreams.default, []⟩
      (by decide) (by decide) (by decide) (by decide) (by decide) rfl
    simpa using h
  · have h := C3_resolve_output_template.2 "out".data "go".data "!".data "user".data
      "png".data
      ⟨"in".data, "pic".data, [], none, none, none, MediaStreams.default,
        [("stem".data, .str "pic".data)]⟩
      (by decide) (by decide) (by decide) (by decide) (by decide)
      (by
        intro kv hkv
        simp only [List.mem_singleton] at hkv
        subst hkv
        exact ⟨by decide, by decide⟩)
    exact h

/-! ### C5: quality-metric bounds -/

theorem luma_nonneg (p : Nat × Nat × Nat) : 0 ≤ luma p := by
  rw [luma]
  positivity

theorem luma_le_one (p : Nat × Nat × Nat)
    (h : p.1 ≤ 255 ∧ p.2.1 ≤ 255 ∧ p.2.2 ≤ 255) : luma p ≤ 1 := by
  obtain ⟨h1, h2, h3⟩ := h
  have c1 : (p.1 : ℝ) ≤ 255 := by exact_mod_cast h1
  have c2 : (p.2.1 : ℝ) ≤ 255 := by exact_mod_cast h2
  have c3 : (p.2.2 : ℝ) ≤ 255 := by exact_mod_cast h3
  rw [luma, div_le_one (by norm_num)]
  nlinarith

theorem imgMean_nonneg (img : RgbImage) : 0 ≤ imgMean img := by
  rw [imgMean]
  apply div_nonneg
  · exact List.sum_nonneg fun x hx => by
      obtain ⟨p, _, hp⟩ := List.mem_map.mp hx
      exact hp ▸ luma_nonneg p
  · positivity

theorem imgMean_le_one (img : RgbImage) (hwf : img.Wf) : imgMean img ≤ 1 := by
  rw [imgMean]
  rcases Nat.eq_zero_or_pos (img.width * img.height) with h0 | hpos
  · have : img.pixels = [] := List.length_eq_zero.mp (by rw [hwf.1, h0])
    simp [this, h0]
  · rw [div_le_one (by exact_mod_cast hpos)]
    have hsum : (img.pixels.map luma).sum ≤ (img.pixels.map luma).length • (1 : ℝ) :=
      List.sum_le_card_nsmul _ _ fun x hx => by
        obtain ⟨p, hp, hpx⟩ := List.mem_map.mp hx
        exact hpx ▸ luma_le_one p (hwf.2 p hp)
    rw [List.length_map, hwf.1] at hsum
    simpa [nsmul_eq_mul] using hsum

theorem imgVariance_nonneg (img : RgbImage) (mean : ℝ) :
    0 ≤ imgVariance img mean := by
  rw [imgVariance]
  apply div_nonneg
  · exact List.sum_nonneg fun x hx => by
      obtain ⟨p, _, hp⟩ := List.mem_map.mp hx
      exact hp ▸ sq_nonneg _
  · positivity

/-- The covariance of two well-formed images is at least `-1`. -/
theorem imgCovariance_ge_neg_one (reference candidate : RgbImage)
    (hr : reference.Wf) (hc : candidate.Wf)
    (hμr : 0 ≤ imgMean reference ∧ imgMean reference ≤ 1)
    (hμc : 0 ≤ imgMean candidate ∧ imgMean candidate ≤ 1) :
    -1 ≤ imgCovariance reference candidate (imgMean reference) (imgMean candidate) := by
  rw [imgCovariance]
  set n : ℝ := ((reference.width * reference.height : Nat) : ℝ) with hn
  have hn0 : 0 ≤ n := by positivity
  set L := (reference.pixels.zip candidate.pixels).map fun pq =>
    (luma pq.1 - imgMean reference) * (luma pq.2 - imgMean candidate) with hL
  have hlen : (L.length : ℝ) ≤ n := by
    rw [hL, List.length_map, List.length_zip, hn, ← hr.1]
    exact_mod_cast min_le_left _ _
  have hterm : ∀ x ∈ L, (-1 : ℝ) ≤ x := by
    intro x hx
    rw [hL] at hx
    obtain ⟨pq, hpq, hpx⟩ := List.mem_map.mp hx
    have hmem := List.of_mem_zip hpq
    have h1 := luma_nonneg pq.1
    have h2 := luma_le_one pq.1 (hr.2 pq.1 hmem.1)
    have h3 := luma_nonneg pq.2
    have h4 := luma_le_one pq.2 (hc.2 pq.2 hmem.2)
    have ha : -1 ≤ luma pq.1 - imgMean reference := by linarith [hμr.2]
    have ha' : luma pq.1 - imgMean reference ≤ 1 := by linarith [hμr.1]
    have hb : -1 ≤ luma pq.2 - imgMean candidate := by linarith [hμc.2]
    have hb' : luma pq.2 - imgMean candidate ≤ 1 := by linarith [hμc.1]
    rw [← hpx]
    nlinarith
  have hsum := List.card_nsmul_le_sum L (-1) hterm
  rw [nsmul_eq_mul] at hsum
  rcases eq_or_lt_of_le hn0 with h0 | hpos
  · rw [← h0, div_zero]
    norm_num
  · rw [le_div_iff₀ hpos]
    nlinarith

/-- Pointwise `2ab ≤ a² + b²` summed over the zipped pixels: twice the
covariance sum is at most the two variance sums (equal pixel counts). -/
theorem cov_sum_le (reference candidate : RgbImage)
    (hlen : reference.pixels.length = candidate.pixels.length)
    (μr μc : ℝ) :
    2 * ((reference.pixels.zip candidate.pixels).map fun pq =>
        (luma pq.1 - μr) * (luma pq.2 - μc)).sum
      ≤ (reference.pixels.map fun p => (luma p - μr) ^ 2).sum
        + (candidate.pixels.map fun p => (luma p - μc) ^ 2).sum := by
  set Z := reference.pixels.zip candidate.pixels with hZ
  have h1 : (Z.map fun pq => 2 * ((luma pq.1 - μr) * (luma pq.2 - μc))).sum
      ≤ (Z.map fun pq => (luma pq.1 - μr) ^ 2 + (luma pq.2 - μc) ^ 2).sum :=
    List.sum_le_sum fun pq _ => by nlinarith [sq_nonneg ((luma pq.1 - μr) - (luma pq.2 - μc))]
  have h2 : (Z.map fun pq => 2 * ((luma pq.1 - μr) * (luma pq.2 - μc))).sum
      = 2 * (Z.map fun pq => (luma pq.1 - μr) * (luma pq.2 - μc)).sum := by
    rw [← List.sum_map_mul_left]
  have h3 : (Z.map fun pq => (luma pq.1 - μr) ^ 2 + (luma pq.2 - μc) ^ 2).sum
      = (Z.map fun pq => (luma pq.1 - μr) ^ 2).sum
        + (Z.map fun pq => (luma pq.2 - μc) ^ 2).sum := by
    rw [← List.sum_map_add]
  have h4 : (Z.map fun pq => (luma pq.1 - μr) ^ 2).sum
      = (reference.pixels.map fun p => (luma p - μr) ^ 2).sum := by
    have hfst : List.map Prod.fst Z = reference.pixels :=
      List.map_fst_zip _ _ (le_of_eq hlen)
    calc (Z.map fun pq => (luma pq.1 - μr) ^ 2).sum
        = ((Z.map Prod.fst).map fun p => (luma p - μr) ^ 2).sum := by
          rw [List.map_map]; rfl
      _ = _ := by rw [hfst]
  have h5 : (Z.map fun pq => (luma pq.2 - μc) ^ 2).sum
      = (candidate.pixels.map fun p => (luma p - μc) ^ 2).sum := by
    have hsnd : List.map Prod.snd Z = candidate.pixels :=
      List.map_snd_zip _ _ (le_of_eq hlen.symm)
    calc (Z.map fun pq => (luma pq.2 - μc) ^ 2).sum
        = ((Z.map Prod.snd).map fun p => (luma p - μc) ^ 2).sum := by
          rw [List.map_map]; rfl
      _ = _ := by rw [hsnd]
  calc 2 * (Z.map fun pq => (luma pq.1 - μr) * (luma pq.2 - μc)).sum
      = (Z.map fun pq => 2 * ((luma pq.1 - μr) * (luma pq.2 - μc))).sum := h2.symm
    _ ≤ (Z.map fun pq => (luma pq.1 - μr) ^ 2 + (luma pq.2 - μc) ^ 2).sum := h1
    _ = _ := by rw [h3, h4, h5]

/-- C5 (confirmed, over the real-valued idealisation of `f64`): for
well-formed images of equal dimensions, `compute_metrics` succeeds with
`MSE ≥ 0`, `SSIM ∈ [0, 1]`, and `PSNR = +∞` exactly when `MSE = 0`
(otherwise `PSNR = 20·log10 255 − 10·log10 MSE`). -/
theorem C5_metric_bounds (reference candidate : RgbImage)
    (hr : reference.Wf) (hc : candidate.Wf)
    (hw : reference.width = candidate.width)
    (hh : reference.height = candidate.height) :
    ∃ m : QualityMetrics, compute_metrics reference candidate = .ok m ∧
      0 ≤ m.mse ∧ 0 ≤ m.ssim ∧ m.ssim ≤ 1 ∧
      (m.psnr = ⊤ ↔ m.mse = 0) ∧
      (m.mse ≠ 0 →
        m.psnr = ((20 * Real.logb 10 255 - 10 * Real.logb 10 m.mse : ℝ) : EReal)) := by
  have hlen : reference.pixels.length = candidate.pixels.length := by
    rw [hr.1, hc.1, hw, hh]
  have hμr : 0 ≤ imgMean reference ∧ imgMean reference ≤ 1 :=
    ⟨imgMean_nonneg _, imgMean_le_one _ hr⟩
  have hμc : 0 ≤ imgMean candidate ∧ imgMean candidate ≤ 1 :=
    ⟨imgMean_nonneg _, imgMean_le_one _ hc⟩
  have hvr := imgVariance_nonneg reference (imgMean reference)
  have hvc := imgVariance_nonneg candidate (imgMean candidate)
  have hcov := imgCovariance_ge_neg_one reference candidate hr hc hμr hμc
  have hg1 : (0 : ℝ) <
      imgMean reference ^ 2 + imgMean candidate ^ 2 + (0.01 * 255) ^ 2 := by
    positivity
  have hg2 : (0 : ℝ) <
      imgVariance reference (imgMean reference)
        + imgVariance candidate (imgMean candidate) + (0.03 * 255) ^ 2 := by
    have : (0 : ℝ) < (0.03 * 255) ^ 2 := by norm_num
    linarith
  have hden : ¬ (imgMean reference ^ 2 + imgMean candidate ^ 2 + (0.01 * 255) ^ 2)
      * (imgVariance reference (imgMean reference)
        + imgVariance candidate (imgMean candidate) + (0.03 * 255) ^ 2) = 0 :=
    ne_of_gt (mul_pos hg1 hg2)
  have hcovle : 2 * imgCovariance reference candidate (imgMean reference) (imgMean candidate)
      ≤ imgVariance reference (imgMean reference)
        + imgVariance candidate (imgMean candidate) := by
    have hsum := cov_sum_le reference candidate hlen (imgMean reference) (imgMean candidate)
    rw [imgCovariance, imgVariance, imgVariance]
    have hcast : ((candidate.width * candidate.height : Nat) : ℝ)
        = ((reference.width * reference.height : Nat) : ℝ) := by rw [hw, hh]
    rw [hcast]
    set n : ℝ := ((reference.width * reference.height : Nat) : ℝ) with hn
    have hn0 : 0 ≤ n := by positivity
    rcases eq_or_lt_of_le hn0 with h0 | hpos
    · rw [← h0]
      simp
    · rw [mul_div_assoc', div_add_div_same, div_le_div_iff_of_pos_right hpos]
      exact hsum
  have hf1 : (0 : ℝ) ≤ 2 * imgMean reference * imgMean candidate + (0.01 * 255) ^ 2 := by
    nlinarith [hμr.1, hμc.1]
  have hf2 : (0 : ℝ) ≤ 2 * imgCovariance reference candidate (imgMean reference)
      (imgMean candidate) + (0.03 * 255) ^ 2 := by
    nlinarith [hcov]
  have hf1le : 2 * imgMean reference * imgMean candidate + (0.01 * 255) ^ 2
      ≤ imgMean reference ^ 2 + imgMean candidate ^ 2 + (0.01 * 255) ^ 2 := by
    nlinarith [sq_nonneg (imgMean reference - imgMean candidate)]
  have hf2le : 2 * imgCovariance reference candidate (imgMean reference) (imgMean candidate)
        + (0.03 * 255) ^ 2
      ≤ imgVariance reference (imgMean reference)
        + imgVariance candidate (imgMean candidate) + (0.03 * 255) ^ 2 := by
    linarith
  have hnum : (0 : ℝ) ≤
      (2 * imgMean reference * imgMean candidate + (0.01 * 255) ^ 2)
        * (2 * imgCovariance reference candidate (imgMean reference) (imgMean candidate)
          + (0.03 * 255) ^ 2) :=
    mul_nonneg hf1 hf2
  have hnumle :
      (2 * imgMean reference * imgMean candidate + (0.01 * 255) ^ 2)
        * (2 * imgCovariance reference candidate (imgMean reference) (imgMean candidate)
          + (0.03 * 255) ^ 2)
      ≤ (imgMean reference ^ 2 + imgMean candidate ^ 2 + (0.01 * 255) ^ 2)
        * (imgVariance reference (imgMean reference)
          + imgVariance candidate (imgMean candidate) + (0.03 * 255) ^ 2) :=
    mul_le_mul hf1le hf2le hf2 (le_of_lt hg1)
  have hssim : structural_similarity reference candidate
      = .ok ((2 * imgMean reference * imgMean candidate + (0.01 * 255) ^ 2)
          * (2 * imgCovariance reference candidate (imgMean reference) (imgMean candidate)
            + (0.03 * 255) ^ 2)
        / ((imgMean reference ^ 2 + imgMean candidate ^ 2 + (0.01 * 255) ^ 2)
          * (imgVariance reference (imgMean reference)
            + imgVariance candidate (imgMean candidate) + (0.03 * 255) ^ 2))) := by
    rw [structural_similarity]
    rw [if_neg hden]
  have hmse : (0 : ℝ) ≤ mean_squared_error reference candidate := by
    rw [mean_squared_error]
    apply div_nonneg
    · exact List.sum_nonneg fun x hx => by
        obtain ⟨pq, _, hpq⟩ := List.mem_map.mp hx
        rw [← hpq]
        positivity
    · positivity
  refine ⟨⟨mean_squared_error reference candidate,
      peak_signal_to_noise_ratio (mean_squared_error reference candidate),
      (2 * imgMean reference * imgMean candidate + (0.01 * 255) ^ 2)
          * (2 * imgCovariance reference candidate (imgMean reference) (imgMean candidate)
            + (0.03 * 255) ^ 2)
        / ((imgMean reference ^ 2 + imgMean candidate ^ 2 + (0.01 * 255) ^ 2)
          * (imgVariance reference (imgMean reference)
            + imgVariance candidate (imgMean candidate) + (0.03 * 255) ^ 2))⟩,
    ?_, ?_, ?_, ?_, ?_, ?_⟩
  · rw [compute_metrics, if_pos ⟨hw, hh⟩, hssim]
  · exact hmse
  · exact div_nonneg hnum (le_of_lt (mul_pos hg1 hg2))
  · rw [div_le_one (mul_pos hg1 hg2)]
    exact hnumle
  · constructor
    · intro htop
      by_contra hne
      rw [peak_signal_to_noise_ratio, if_neg hne] at htop
      exact EReal.coe_ne_top _ htop
    · intro h0
      rw [peak_signal_to_noise_ratio, if_pos h0]
  · intro hne
    rw [peak_signal_to_noise_ratio, if_neg hne]

/-- C5 witness: a pair of concrete equal-dimension images. -/
theorem C5_witness :
    (RgbImage.mk 1 1 [(0, 0, 0)]).Wf ∧ (RgbImage.mk 1 1 [(10, 20, 30)]).Wf ∧
    ∃ m : QualityMetrics,
      compute_metrics (RgbImage.mk 1 1 [(0, 0, 0)]) (RgbImage.mk 1 1 [(10, 20, 30)])
          = .ok m ∧
        0 ≤ m.mse ∧ 0 ≤ m.ssim ∧ m.ssim ≤ 1 ∧
        (m.psnr = ⊤ ↔ m.mse = 0) ∧
        (m.mse ≠ 0 →
          m.psnr = ((20 * Real.logb 10 255 - 10 * Real.logb 10 m.mse : ℝ) : EReal)) := by
  refine ⟨?_, ?_, ?_⟩
  · constructor
    · rfl
    · intro p hp
      simp only [List.mem_singleton] at hp
      subst hp
      refine ⟨by norm_num, by norm_num, by norm_num⟩
  · constructor
    · rfl
    · intro p hp
      simp only [List.mem_singleton] at hp
      subst hp
      refine ⟨by norm_num, by norm_num, by norm_num⟩
  · exact C5_metric_bounds (RgbImage.mk 1 1 [(0, 0, 0)]) (RgbImage.mk 1 1 [(10, 20, 30)])
      ⟨rfl, fun p hp => by
        simp only [List.mem_singleton] at hp
        subst hp
        exact ⟨by norm_num, by norm_num, by norm_num⟩⟩
      ⟨rfl, fun p hp => by
        simp only [List.mem_singleton] at hp
        subst hp
        exact ⟨by norm_num, by norm_num, by norm_num⟩⟩
      rfl rfl

/-! ### C4: quality-gate evaluation -/

/-- A single gate check returns `none` exactly when none of its declared
thresholds is violated. -/
theorem gateCheck_none_iff (m : QualityMetrics) (g : QualityGateSpec) :
    gateCheck m g = none ↔ ¬ GateViolated m g := by
  obtain ⟨lbl, os, op, om⟩ := g
  rw [gateCheck, GateViolated]
  rcases os with _ | ts <;> rcases op with _ | tp <;> rcases om with _ | tm <;>
    simp only [] <;>
    (try split_ifs) <;>
    simp_all

/-- The gate loop returns `none` exactly when no declared gate is
violated. -/
theorem gatesLoop_none_iff (m : QualityMetrics) :
    ∀ gates : List QualityGateSpec,
      gatesLoop m gates = none ↔ ∀ g ∈ gates, ¬ GateViolated m g := by
  intro gates
  induction gates with
  | nil => simp [gatesLoop]
  | cons g rest ih =>
    rw [gatesLoop]
    rcases hgc : gateCheck m g with _ | f
    · simp only [List.mem_cons]
      constructor
      · intro h x hx
        rcases hx with hx | hx
        · subst hx
          exact (gateCheck_none_iff m x).mp hgc
        · exact (ih.mp h) x hx
      · intro h
        exact ih.mpr fun x hx => h x (Or.inr hx)
    · simp only [List.mem_cons]
      constructor
      · intro h
        exact Option.noConfusion h
      · intro h
        have := (gateCheck_none_iff m g).mpr (h g (Or.inl rfl))
        rw [this] at hgc
        exact Option.noConfusion hgc

/-- C4 (confirmed): with at least one gate configured, the original and
current images available, metrics computable, and decode supported, gate
evaluation iterates the gates in declared order (checking `min_ssim`,
then `min_psnr`, then `max_mse` within a gate); the first violated
threshold aborts with that failure and bumps the failure counter exactly
once, and otherwise the pass counter is bumped once and `quality.mse`,
`quality.psnr`, `quality.ssim` are attached to the metadata via
`value_from_metric` (string form for a non-finite value). -/
theorem C4_quality_gates (gates : List QualityGateSpec) (a : Artifact)
    (ref cand : RgbImage) (m : QualityMetrics)
    (hg : gates ≠ [])
    (horig : a.original_image = some ref)
    (hdec : ¬ (metaGet a.metadata "output.decode_supported".data).bind JValue.asBool
      = some false)
    (himg : a.image = some cand)
    (hm : compute_metrics ref cand = .ok m) :
    (∀ f, gatesLoop m gates = some f →
      evaluate_quality_gates gates a = ⟨.error (.gateFailed f), a, 0, 1⟩ ∧
      quality_step gates a = .error (.gateFailed f)) ∧
    (gatesLoop m gates = none →
      evaluate_quality_gates gates a = ⟨.ok (some m), a, 1, 0⟩ ∧
      quality_step gates a = .ok (attach_quality a m, 1, 0)) ∧
    (gatesLoop m gates = none ↔ ∀ g ∈ gates, ¬ GateViolated m g) := by
  have hne : gates.isEmpty = false := by
    cases gates with
    | nil => exact absurd rfl hg
    | cons g rest => rfl
  have hev : ∀ r, gatesLoop m gates = r →
      evaluate_quality_gates gates a =
        (match r with
         | some f => ⟨.error (.gateFailed f), a, 0, 1⟩
         | none => ⟨.ok (some m), a, 1, 0⟩) := by
    intro r hr
    rw [evaluate_quality_gates, if_neg (by simp [hne]), horig]
    dsimp only
    rw [if_neg hdec, himg]
    dsimp only
    rw [hm]
    dsimp only
    rw [hr]
  refine ⟨?_, ?_, gatesLoop_none_iff m gates⟩
  · intro f hf
    have h1 := hev (some f) hf
    refine ⟨h1, ?_⟩
    rw [quality_step, h1]
  · intro hf
    have h1 := hev none hf
    refine ⟨h1, ?_⟩
    rw [quality_step, h1]

/-- C4 witness: one unconstrained gate over a trivial artifact. -/
theorem C4_witness :
    evaluate_quality_gates [⟨none, none, none, none⟩]
        ⟨"in".data, "pic".data, [], none, some ⟨1, 1, [(0, 0, 0)]⟩,
          some ⟨1, 1, [(0, 0, 0)]⟩, MediaStreams.default, []⟩
      = ⟨.ok (some ⟨0, ⊤, 1⟩),
          ⟨"in".data, "pic".data, [], none, some ⟨1, 1, [(0, 0, 0)]⟩,
            some ⟨1, 1, [(0, 0, 0)]⟩, MediaStreams.default, []⟩, 1, 0⟩ := by
  have hm : compute_metrics (RgbImage.mk 1 1 [(0, 0, 0)]) (RgbImage.mk 1 1 [(0, 0, 0)])
      = .ok ⟨0, ⊤, 1⟩ := by
    have hd : ¬ (imgMean (RgbImage.mk 1 1 [(0, 0, 0)]) ^ 2
        + imgMean (RgbImage.mk 1 1 [(0, 0, 0)]) ^ 2 + ((0.01 : ℝ) * 255) ^ 2)
        * (imgVariance (RgbImage.mk 1 1 [(0, 0, 0)]) (imgMean (RgbImage.mk 1 1 [(0, 0, 0)]))
          + imgVariance (RgbImage.mk 1 1 [(0, 0, 0)]) (imgMean (RgbImage.mk 1 1 [(0, 0, 0)]))
          + ((0.03 : ℝ) * 255) ^ 2) = 0 := by
      have h1 : imgMean (RgbImage.mk 1 1 [(0, 0, 0)]) = 0 := by
        rw [imgMean]
        simp [luma]
      have h2 : imgVariance (RgbImage.mk 1 1 [(0, 0, 0)]) 0 = 0 := by
        rw [imgVariance]
        simp [luma]
      rw [h1, h2]
      norm_num
    rw [compute_metrics, if_pos ⟨rfl, rfl⟩, structural_similarity, if_neg hd]
    have h1 : imgMean (RgbImage.mk 1 1 [(0, 0, 0)]) = 0 := by
      rw [imgMean]
      simp [luma]
    have h2 : imgVariance (RgbImage.mk 1 1 [(0, 0, 0)]) 0 = 0 := by
      rw [imgVariance]
      simp [luma]
    have h3 : imgCovariance (RgbImage.mk 1 1 [(0, 0, 0)]) (RgbImage.mk 1 1 [(0, 0, 0)]) 0 0
        = 0 := by
      rw [imgCovariance]
      simp [luma]
    have hmse0 : mean_squared_error (RgbImage.mk 1 1 [(0, 0, 0)])
        (RgbImage.mk 1 1 [(0, 0, 0)]) = 0 := by
      rw [mean_squared_error]
      norm_num
    rw [h1, h2, h3]
    dsimp only
    rw [hmse0]
    rw [show peak_signal_to_noise_ratio (0 : ℝ) = ⊤ from by
      rw [peak_signal_to_noise_ratio, if_pos rfl]]
    simp only [Except.ok.injEq, QualityMetrics.mk.injEq]
    refine ⟨trivial, trivial, ?_⟩
    norm_num
  have h := (C4_quality_gates [⟨none, none, none, none⟩]
      ⟨"in".data, "pic".data, [], none, some ⟨1, 1, [(0, 0, 0)]⟩,
        some ⟨1, 1, [(0, 0, 0)]⟩, MediaStreams.default, []⟩
      ⟨1, 1, [(0, 0, 0)]⟩ ⟨1, 1, [(0, 0, 0)]⟩ ⟨0, ⊤, 1⟩
      (by simp) rfl (by simp [metaGet]) rfl hm).2.1 rfl
  exact h.1

/-! ### C6: the original decoded image -/

/-- C6 counterexample: `Artifact::set_original_image` overwrites
unconditionally and `DecodeStage::run` calls it on every run, so a
pipeline that decodes, encodes (replacing the raw bytes), and decodes
again replaces the original decoded image set by the first decoder. -/
theorem C6_cex :
    (Except.map (fun a => a.original_image)
      (runStages ⟨"o".data, "{stem}.{ext}".data⟩
        [.decode fun bytes => .ok (⟨bytes.length, 1, []⟩, "png".data)]
        ⟨"in".data, "x".data, [0], none, none, none, MediaStreams.default, []⟩)
      = .ok (some ⟨1, 1, []⟩)) ∧
    (Except.map (fun a => a.original_image)
      (runStages ⟨"o".data, "{stem}.{ext}".data⟩
        [.decode fun bytes => .ok (⟨bytes.length, 1, []⟩, "png".data),
         .encode (fun img => .ok (List.replicate (img.width + 1) 0))
           (fun bytes => .ok (⟨bytes.length, 1, []⟩, "png".data))
           "png".data "png".data,
         .decode fun bytes => .ok (⟨bytes.length, 1, []⟩, "png".data)]
        ⟨"in".data, "x".data, [0], none, none, none, MediaStreams.default, []⟩)
      = .ok (some ⟨2, 1, []⟩)) ∧
    some (RgbImage.mk 1 1 []) ≠ some (RgbImage.mk 2 1 []) :=
  ⟨rfl, rfl, by decide⟩

/-- C6 (amended): no stage other than `decode` ever writes the original
decoded image — any decode-free stage sequence preserves it — while
`decode` overwrites it on every run (so the claimed invariant holds
exactly for executions that run the decoder at most once). -/
theorem C6_original_image (out : OutputSpec) :
    (∀ op : StageOp, ¬ op.isDecode → ∀ a a', runStage out op a = .ok a' →
      a'.original_image = a.original_image) ∧
    (∀ ops : List StageOp, (∀ op ∈ ops, ¬ op.isDecode) → ∀ a a',
      runStages out ops a = .ok a' → a'.original_image = a.original_image) ∧
    (∀ (dec : List Nat → Except String (RgbImage × List Char)) a a',
      runStage out (.decode dec) a = .ok a' →
      ∃ img label, dec a.data = .ok (img, label) ∧ a'.original_image = some img) := by
  have hstage : ∀ op : StageOp, ¬ op.isDecode → ∀ a a',
      runStage out op a = .ok a' → a'.original_image = a.original_image := by
    intro op hnd a a' h
    cases op with
    | decode dec => exact absurd trivial hnd
    | annotate key value =>
      rw [runStage, annotateRun] at h
      cases h
      rfl
    | resize resample w hgt filterName modeName =>
      rw [runStage, resizeRun] at h
      split at h
      · exact Except.noConfusion h
      · cases h
        rfl
    | encode enc dec label extension =>
      rw [runStage, encodeRun] at h
      split at h
      · exact Except.noConfusion h
      · split at h
        · exact Except.noConfusion h
        · split at h <;> (cases h; rfl)
    | videoDecode =>
      rw [runStage, videoDecodeRun] at h
      split at h
      · exact Except.noConfusion h
      · split at h
        · split at h
          · exact Except.noConfusion h
          · rw [videoDecodeTail] at h
            split at h
            · exact Except.noConfusion h
            · cases h
              rfl
        · rw [videoDecodeTail] at h
          split at h
          · exact Except.noConfusion h
          · cases h
            rfl
    | videoEncode format extension =>
      rw [runStage, videoEncodeRun] at h
      split at h
      · exact Except.noConfusion h
      · cases h
        rfl
  refine ⟨hstage, ?_, ?_⟩
  · intro ops
    induction ops with
    | nil =>
      intro _ a a' h
      cases h
      rfl
    | cons op rest ih =>
      intro hnd a a' h
      rw [runStages] at h
      split at h
      · exact Except.noConfusion h
      · rename_i a₁ heq
        have h1 := hstage op (hnd op (List.mem_cons_self _ _)) a a₁ heq
        have h2 := ih (fun x hx => hnd x (List.mem_cons_of_mem _ hx)) a₁ a' h
        rw [h2, h1]
  · intro dec a a' h
    rw [runStage, decodeRun] at h
    split at h
    · exact Except.noConfusion h
    · rename_i img label heq
      cases h
      exact ⟨img, label, heq, rfl⟩

/-- C6 witness: an annotate/resize sequence preserves the original
image. -/
theorem C6_witness :
    ∀ a a' : Artifact,
      runStages ⟨"o".data, "{stem}.{ext}".data⟩
          [.annotate "k".data (.str "v".data), .videoEncode "mp4".data "mp4".data]
          a = .ok a' →
      a'.original_image = a.original_image := by
  intro a a' h
  exact (C6_original_image ⟨"o".data, "{stem}.{ext}".data⟩).2.1
    [.annotate "k".data (.str "v".data), .videoEncode "mp4".data "mp4".data]
    (by
      intro op hop
      rcases List.mem_cons.mp hop with h1 | h1
      · subst h1; exact fun hf => hf
      · rcases List.mem_cons.mp h1 with h2 | h2
        · subst h2; exact fun hf => hf
        · exact absurd h2 (List.not_mem_nil op))
    a a' h

/-! ### C9: MP4 demux never supplies frames -/

/-- Collector invariant: every stored video track has `frame_count = 0`. -/
def collOk (c : TrackCollector) : Prop :=
  ∀ t, c.video = some t → t.frame_count = 0

/-- A minimal well-formed `moov/trak/mdia/\x7bhdlr,minf/stbl/stsd\x7d` buffer
with an `avc1` video sample entry. -/
def c9DemoMp4 : List Nat :=
  [0, 0, 0, 116] ++ "moov".data.map Char.toNat
    ++ ([0, 0, 0, 108] ++ "trak".data.map Char.toNat
      ++ ([0, 0, 0, 100] ++ "mdia".data.map Char.toNat
        ++ ([0, 0, 0, 20] ++ "hdlr".data.map Char.toNat
          ++ ([0, 0, 0, 0, 0, 0, 0, 0] ++ "vide".data.map Char.toNat))
        ++ ([0, 0, 0, 72] ++ "minf".data.map Char.toNat
          ++ ([0, 0, 0, 64] ++ "stbl".data.map Char.toNat
            ++ ([0, 0, 0, 56] ++ "stsd".data.map Char.toNat
              ++ ([0, 0, 0, 0] ++ [0, 0, 0, 1] ++ [0, 0, 0, 36]
                ++ ([0, 0, 0, 0] ++ "avc1".data.map Char.toNat
                  ++ List.replicate 24 0 ++ [0, 100, 0, 50])))))))

/-- A `moov/trak` whose `tkhd` payload is a single version byte — the
demuxer's `data[12..16]` slice is out of bounds — followed by an Annex-B
IDR NAL (`00 00 01 65 ...`). -/
def c9PanicMp4 : List Nat :=
  [0, 0, 0, 25] ++ "moov".data.map Char.toNat
    ++ ([0, 0, 0, 17] ++ "trak".data.map Char.toNat
      ++ ([0, 0, 0, 9] ++ "tkhd".data.map Char.toNat ++ [0]))
    ++ [0, 0, 1, 101, 1, 1, 1, 1]

set_option maxHeartbeats 1000000 in
/-- The only `VideoTrack` construction site (`parse_media`) sets
`frame_count := 0`. -/
theorem parse_media_frame_count (data : List Nat) (ts du : Option Nat)
    (t : VideoTrack) (h : parse_media data ts du = .ok (.video t)) :
    t.frame_count = 0 := by
  rw [parse_media] at h
  split at h
  · exact Except.noConfusion h
  · rename_i hdlr mdhd_ts mdhd_dur stsd? heq
    cases hdlr with
    | none => exact absurd h (by simp)
    | some handler =>
      cases stsd? with
      | none => exact Except.noConfusion h
      | some stsd =>
        dsimp only at h
        set es := read_u32_be stsd 8 with hes
        set ed := sliceAt stsd 12 es with hed
        set cf := sliceAt ed 4 4 with hcf
        repeat' split at h
        all_goals
          first
            | exact Except.noConfusion h
            | (injection h with h2
               first
                 | exact ParsedTrack.noConfusion h2
                 | (injection h2 with h3
                    rw [← h3]))

theorem collect_trak_inv (data : List Nat) (c c' : TrackCollector)
    (hc : collOk c) (h : collect_trak data c = .ok c') : collOk c' := by
  rw [collect_trak] at h
  split at h
  · exact Except.noConfusion h
  · split at h
    · exact Except.noConfusion h
    · split at h
      · exact Except.noConfusion h
      · rename_i t heq
        cases h
        intro t' ht'
        simp only at ht'
        cases ht'
        exact parse_media_frame_count _ _ _ _ heq
      · rename_i t heq
        cases h
        intro t' ht'
        exact hc t' ht'
      · cases h
        exact hc

theorem collectMoovLoop_inv (data : List Nat) :
    ∀ fuel pos c c', collOk c → collectMoovLoop data fuel pos c = .ok c' →
      collOk c' := by
  intro fuel
  induction fuel with
  | zero =>
    intro pos c c' hc h
    cases h
    exact hc
  | succ f ih =>
    intro pos c c' hc h
    rw [collectMoovLoop] at h
    split at h
    · exact Except.noConfusion h
    · cases h
      exact hc
    · split at h
      · split at h
        · exact Except.noConfusion h
        · rename_i c₁ heq
          exact ih _ _ _ (collect_trak_inv _ _ _ hc heq) h
      · exact ih _ _ _ hc h

theorem demuxLoop_inv (data : List Nat) :
    ∀ fuel pos c c', collOk c → demuxLoop data fuel pos c = .ok c' → collOk c' := by
  intro fuel
  induction fuel with
  | zero =>
    intro pos c c' hc h
    cases h
    exact hc
  | succ f ih =>
    intro pos c c' hc h
    rw [demuxLoop] at h
    split at h
    · exact Except.noConfusion h
    · cases h
      exact hc
    · split at h
      · split at h
        · exact Except.noConfusion h
        · rename_i c₁ heq
          exact ih _ _ _ (collectMoovLoop_inv _ _ _ _ _ hc heq) h
      · exact ih _ _ _ hc h

/-- C9 counterexample: on `c9PanicMp4` the demuxer reaches a `tkhd` whose
payload is one byte and slices `data[12..16]` out of it — an uncaught
out-of-bounds panic.  The stage propagates it and never reaches the
Annex-B parser, even though the buffer's trailing `00 00 01 65 ...` NAL
would have decoded to a frame. -/
theorem C9_cex :
    demux_media c9PanicMp4 = .error (.panic "index out of range") ∧
    videoDecodeRun ⟨"in".data, "x".data, c9PanicMp4, none, none, none,
      MediaStreams.default, []⟩ = .error "index out of range" ∧
    ∃ ms, decode_annex_b c9PanicMp4 MediaStreams.default = .ok ms := by
  refine ⟨rfl, rfl, ⟨_, rfl⟩⟩

/-- C9 (amended): every video stream produced by a successful
`demux_media` has an empty frame list and the placeholder frame rate
`Constant (frame_count = 0) / max(duration, 1)`; whenever the demuxer
returns to the stage at all (success, or a `Result` error caught as empty
streams), the MP4 path supplies no frames and `video_decode` falls
through to Annex-B parsing of the same buffer — but an out-of-bounds
slice panic inside the demuxer aborts the stage before any Annex-B
parsing. -/
theorem C9_demux_no_frames :
    (∀ (data : List Nat) (s : MediaStreams), demux_media data = .ok s →
      ∀ vs, s.video = some vs →
        vs.frames = [] ∧ ∃ d, vs.frame_rate = .constant 0 (max d 1)) ∧
    (∀ (data : List Nat) (s : MediaStreams), demux_or_default data = .ok s →
      mp4_frames_missing s = true) ∧
    (∀ (a : Artifact) (s : MediaStreams), demux_or_default a.data = .ok s →
      videoDecodeRun a =
        match decode_annex_b a.data s with
        | .error e => .error ("failed to decode H.264 Annex B stream: " ++ e)
        | .ok media1 => videoDecodeTail a media1) := by
  have part1 : ∀ (data : List Nat) (s : MediaStreams), demux_media data = .ok s →
      ∀ vs, s.video = some vs →
        vs.frames = [] ∧ ∃ d, vs.frame_rate = .constant 0 (max d 1) := by
    intro data s h vs hvs
    rw [demux_media] at h
    split at h
    · exact Except.noConfusion h
    · rename_i collector heq
      cases h
      simp only [Option.map_eq_some'] at hvs
      obtain ⟨v, hv, hvs⟩ := hvs
      have h0 : v.frame_count = 0 :=
        demuxLoop_inv data _ 0 ⟨none, none⟩ collector (fun t ht => by cases ht) heq v hv
      rw [← hvs, h0]
      exact ⟨rfl, v.duration, rfl⟩
  have part2 : ∀ (data : List Nat) (s : MediaStreams), demux_or_default data = .ok s →
      mp4_frames_missing s = true := by
    intro data s h
    rw [demux_or_default] at h
    split at h
    · rename_i s' heq
      injection h with h2
      rw [← h2]
      rw [mp4_frames_missing]
      split
      · rfl
      · rename_i vs hvs
        have := (part1 data s' heq vs hvs).1
        rw [this]
        rfl
    · cases h
      rfl
    · exact Except.noConfusion h
  refine ⟨part1, part2, ?_⟩
  intro a s h
  rw [videoDecodeRun, h]
  dsimp only
  rw [if_pos (part2 a.data s h)]

/-- C9 witness: on the well-formed buffer `c9DemoMp4` the demuxer
succeeds with an `avc1` video stream; applying the main theorem to it
gives the empty frame list and the `0 / max(duration, 1)` frame rate. -/
theorem C9_witness :
    demux_media c9DemoMp4
      = .ok ⟨some ⟨.h264, .constant 0 (max 0 1), [], .bt709⟩, none, [], none⟩ ∧
    ([] : List VideoFrame) = [] ∧ ∃ d, FrameRate.constant 0 (max 0 1)
      = .constant 0 (max d 1) := by
  constructor
  · rfl
  · exact C9_demux_no_frames.1 c9DemoMp4
      ⟨some ⟨.h264, .constant 0 (max 0 1), [], .bt709⟩, none, [], none⟩ rfl
      ⟨.h264, .constant 0 (max 0 1), [], .bt709⟩ rfl

/-- C7 witness: a concrete instance of both conjuncts. -/
theorem C7_witness :
    remove_emulation_prevention [1, 2, 0, 3] = [1, 2, 0, 3] ∧
    remove_emulation_prevention ([1, 2] ++ [0, 0, 3] ++ [7, 8])
      = [1, 2] ++ [0, 0] ++ remove_emulation_prevention [7, 8] :=
  ⟨C7_rbsp_law.1 [1, 2, 0, 3] (by decide),
   C7_rbsp_law.2 [1, 2] [7, 8] (by decide)⟩

end Bunker
